import Mathlib

/-!
Verification of the berry hallucination-detector core
(`berry/hallucination_detector/{trace_budget,stage_ab,core}.py`) against its
specification.  Python strings are embedded as `List Char`, floats as `ℝ`
(log-probabilities, which only feed `exp`/`log`, are carried as exact `ℚ`
and cast to `ℝ` at the transcendental boundary), dicts as insertion-ordered
association lists, and raised exceptions as `Except`.
-/

set_option maxRecDepth 40000

namespace Berry

/-- Python strings, embedded as explicit character lists. -/
abbrev Str := List Char

/-- `str.strip()`: drop whitespace from both ends. -/
def trimCL (s : Str) : Str :=
  ((s.dropWhile Char.isWhitespace).reverse.dropWhile Char.isWhitespace).reverse

/-- `str.lstrip()`: drop whitespace from the left end. -/
def trimLeftCL (s : Str) : Str := s.dropWhile Char.isWhitespace

/-- `str.lower()` (ASCII). -/
def toLowerCL (s : Str) : Str := s.map Char.toLower

/-- `str.upper()` (ASCII). -/
def toUpperCL (s : Str) : Str := s.map Char.toUpper

/-- `sep.join(lines)`. -/
def joinSep (sep : Str) : List Str → Str
  | [] => []
  | [x] => x
  | x :: xs => x ++ sep ++ joinSep sep xs

instance {ε α : Type _} [DecidableEq ε] [DecidableEq α] :
    DecidableEq (Except ε α) := fun x y =>
  match x, y with
  | .ok a, .ok b =>
      if h : a = b then .isTrue (congrArg Except.ok h)
      else .isFalse (fun hh => h (Except.ok.inj hh))
  | .error a, .error b =>
      if h : a = b then .isTrue (congrArg Except.error h)
      else .isFalse (fun hh => h (Except.error.inj hh))
  | .ok _, .error _ => .isFalse (fun hh => Except.noConfusion hh)
  | .error _, .ok _ => .isFalse (fun hh => Except.noConfusion hh)

/-- ASCII letter, the `[A-Za-z]` class. -/
def isAsciiLetter (c : Char) : Bool :=
  (65 ≤ c.toNat && c.toNat ≤ 90) || (97 ≤ c.toNat && c.toNat ≤ 122)

/-- ASCII `\w` class `[A-Za-z0-9_]` (the sources only meet ASCII identifiers). -/
def isWordChar (c : Char) : Bool :=
  isAsciiLetter c || c.isDigit || c = '_'

/-- `str.isdigit()` on ASCII digit strings: non-empty and all digits. -/
def isDigitStr (s : Str) : Bool :=
  !s.isEmpty && s.all Char.isDigit

/-- `int(s)` on a digit string. -/
def digitsToNat (s : Str) : Nat :=
  s.foldl (fun a c => 10 * a + (c.toNat - 48)) 0

/-- Decimal rendering of a natural number, as used by `f"S{n}"`; the extra
`Nat` is fuel (any amount above the digit count gives the same result). -/
def natDigitsF : Nat → Nat → Str
  | 0, _ => []
  | fuel + 1, n =>
      if n < 10 then [Char.ofNat (48 + n)]
      else natDigitsF fuel (n / 10) ++ [Char.ofNat (48 + n % 10)]

def natDigits (n : Nat) : Str := natDigitsF (n + 1) n

/-! ### trace_budget numeric core -/

/-- The clipping floor `1e-12` of `_safe_clip`. -/
noncomputable def eps : ℝ := 1e-12

/-- `_safe_clip(p)`: clamp `p` into `[1e-12, 1 - 1e-12]`. -/
noncomputable def safe_clip (p : ℝ) : ℝ := min (max p eps) (1 - eps)

/-- `kl_bernoulli(a, b)`: Bernoulli Kullback-Leibler divergence of the
clipped arguments, in nats. -/
noncomputable def kl_bernoulli (a b : ℝ) : ℝ :=
  safe_clip a * Real.log (safe_clip a / safe_clip b) +
    (1 - safe_clip a) * Real.log ((1 - safe_clip a) / (1 - safe_clip b))

/-- The tuple returned by `_budget_from_intervals`: required/observed/gap
intervals and the flag verdict (a real comparison, kept as a `Prop`). -/
structure BudgetIntervals where
  req_min : ℝ
  req_max : ℝ
  obs_min : ℝ
  obs_max : ℝ
  gap_min : ℝ
  gap_max : ℝ
  flagged : Prop

/-- `_budget_from_intervals(target, p0_lo, p0_hi, p1_lo, p1_hi)`.  The four
corners are listed in source order `[(p1_lo,p0_lo),(p1_lo,p0_hi),
(p1_hi,p0_lo),(p1_hi,p0_hi)]`; `min`/`max` over that list fold from the left
as Python's `min`/`max` do. -/
noncomputable def budget_from_intervals (target p0_lo p0_hi p1_lo p1_hi : ℝ) :
    BudgetIntervals :=
  let req_min := kl_bernoulli target p0_hi
  let req_max := kl_bernoulli target (max p0_lo eps)
  let v1 := kl_bernoulli p1_lo p0_lo
  let v2 := kl_bernoulli p1_lo p0_hi
  let v3 := kl_bernoulli p1_hi p0_lo
  let v4 := kl_bernoulli p1_hi p0_hi
  let obs_min := min (min (min v1 v2) v3) v4
  let obs_max := max (max (max v1 v2) v3) v4
  ⟨req_min, req_max, obs_min, obs_max,
    req_min - obs_max, req_max - obs_min, req_min > obs_max⟩

example : (1e-12 : ℝ) ≤ 1 / 2 := by norm_num
example : (budget_from_intervals 1 0 1 0 1).req_min = kl_bernoulli 1 1 := rfl

/-! ### stage_ab: `extract_answer_topk`

A per-token record of the backend's log-probability payload: a token string,
an optional log-probability, and the list of alternative tokens considered
at that position (`_get_token` / `_get_logprob` / `_get_top_logprobs` already
normalised, with an absent or unparsable log-probability as `none`). -/

/-- One `{token, logprob}` alternative inside `top_logprobs`. -/
structure TopEntry where
  token : Str
  logprob : Option ℚ
deriving DecidableEq

/-- One per-output-token record of a logprobs sequence. -/
structure TokInfo where
  token : Str
  logprob : Option ℚ
  top_logprobs : List TopEntry
deriving DecidableEq

/-- `TokenTopK`: top-K distribution at the answer-start token position.
`topk_logprobs` is the insertion-ordered token→max-logprob map. -/
structure TokenTopK where
  pos : Nat
  generated_token : Str
  generated_logprob : ℚ
  topk_logprobs : List (Str × ℚ)
  kth_logprob : Option ℚ
deriving DecidableEq

/-- `topk[key] = max(topk.get(key, -inf), lp)` on an insertion-ordered dict:
update the value in place if the key exists, else append at the end. -/
def upsertMax : List (Str × ℚ) → Str → ℚ → List (Str × ℚ)
  | [], k, v => [(k, v)]
  | (k', v') :: rest, k, v =>
      if k' = k then (k', max v' v) :: rest else (k', v') :: upsertMax rest k v

/-- Python `min` over a list, `none` on the empty list. -/
def listMin : List ℚ → Option ℚ
  | [] => none
  | x :: xs => some (xs.foldl min x)

/-- Index of the first token whose stripped text is non-empty (the
`for i, tokinfo in enumerate(seq)` search loop). -/
def firstNonWs : List TokInfo → Option Nat
  | [] => none
  | t :: rest =>
      if trimCL t.token ≠ [] then some 0 else (firstNonWs rest).map (· + 1)

/-- A dummy record; `seq.getD pos dfltTok` is only evaluated in range. -/
def dfltTok : TokInfo := ⟨[], none, []⟩

/-- The record built by `extract_answer_topk` at the selected position:
the token→max-logprob map over the alternatives (insertion-ordered, blank
keys and absent log-probabilities skipped) and the k-th bound (minimum
alternative log-probability, absent when there are no usable ones). -/
def mkTokenTopK (pos : Nat) (tokinfo : TokInfo) (gen_lp : ℚ) : TokenTopK :=
  let top_list := tokinfo.top_logprobs
  let topk := top_list.foldl
    (fun acc t =>
      match t.logprob with
      | none => acc
      | some lp =>
          let key := trimLeftCL t.token
          if key = [] then acc else upsertMax acc key lp)
    []
  let kth := if top_list.isEmpty then none
    else listMin (top_list.filterMap (·.logprob))
  ⟨pos, tokinfo.token, gen_lp, topk, kth⟩

/-- `extract_answer_topk(logprobs)`: pick the first non-whitespace output
token (position 0 if all are whitespace), fail on an empty sequence or a
missing log-probability, and build the top-K record from the alternatives
at that position. -/
def extract_answer_topk (seq : List TokInfo) : Except Str TokenTopK :=
  if seq.isEmpty then .error ("empty logprobs list").data
  else
    match (seq.getD ((firstNonWs seq).getD 0) dfltTok).logprob with
    | none => .error ("missing logprob for generated token").data
    | some gen_lp =>
        .ok (mkTokenTopK ((firstNonWs seq).getD 0)
          (seq.getD ((firstNonWs seq).getD 0) dfltTok) gen_lp)

/-! ### yesprob_from_logprobs -/

/-- The `YesProb` dataclass. -/
structure YesProb where
  p_yes_lower : ℝ
  p_yes_upper : ℝ
  generated : Str
  generated_logprob : ℚ
  kth_logprob : Option ℚ
  topk : List (Str × ℚ)

/-- The alternatives of a top-K map whose trimmed upper-cased text is `YES`. -/
def yesEntries (topk : List (Str × ℚ)) : List (Str × ℚ) :=
  topk.filter (fun p => toUpperCL (trimCL p.1) = ("YES").data)

/-- The body of `yesprob_from_logprobs` after extraction: sum `exp` over the
`YES` alternatives and clamp when any exist, else the `[0, exp(kth)]` (or
`[0, 1]`) bound.  (`math.isfinite` is vacuous over `ℝ`.) -/
noncomputable def yesprob_of_topk (t : TokenTopK) : YesProb :=
  let yes_lps : List ℚ := (yesEntries t.topk_logprobs).map Prod.snd
  if yes_lps.isEmpty then
    let p_upper : ℝ := match t.kth_logprob with
      | some k => Real.exp (k : ℝ)
      | none => 1
    ⟨0, p_upper, t.generated_token, t.generated_logprob, t.kth_logprob,
      t.topk_logprobs⟩
  else
    let p : ℝ :=
      min (max ((yes_lps.map (fun (lp : ℚ) => Real.exp ((lp : ℝ)))).sum) 0) 1
    ⟨p, p, t.generated_token, t.generated_logprob, t.kth_logprob,
      t.topk_logprobs⟩

/-- `yesprob_from_logprobs(logprobs)`; extraction errors propagate. -/
noncomputable def yesprob_from_logprobs (seq : List TokInfo) :
    Except Str YesProb :=
  match extract_answer_topk seq with
  | .error e => .error e
  | .ok t => .ok (yesprob_of_topk t)

/-! ### core.py: citation regex primitives

`_DEFAULT_CITE_RE = \[(?P<id>[A-Za-z]\w*|\d+)\]`.  Since `]` is neither a
word character nor a digit, the regex engine's greedy scan needs no
backtracking and a direct parser is faithful. -/

/-- Try to match `\[([A-Za-z]\w*|\d+)\]` at the head of `l`; on success
return the group and the remaining input after `]`. -/
def parseCite : Str → Option (Str × Str)
  | '[' :: c :: rest =>
      if isAsciiLetter c then
        match (c :: rest).dropWhile isWordChar with
        | ']' :: tail => some ((c :: rest).takeWhile isWordChar, tail)
        | _ => none
      else if c.isDigit then
        match (c :: rest).dropWhile Char.isDigit with
        | ']' :: tail => some ((c :: rest).takeWhile Char.isDigit, tail)
        | _ => none
      else none
  | _ => none

/-- `bool(_DEFAULT_CITE_RE.search(seg))`. -/
def findCite (l : Str) : Bool :=
  match l with
  | [] => false
  | c :: cs => (parseCite (c :: cs)).isSome || findCite cs

/-- `_DEFAULT_CITE_RE.sub("", seg)`: delete every citation marker, scanning
left to right over non-overlapping matches.  The `Nat` is fuel: every step
consumes at least one character, so fuel `l.length` is never exhausted. -/
def subCitesF : Nat → Str → Str
  | 0, l => l
  | _, [] => []
  | fuel + 1, c :: cs =>
      match parseCite (c :: cs) with
      | some (_, rest) => subCitesF fuel rest
      | none => c :: subCitesF fuel cs

def subCites (l : Str) : Str := subCitesF l.length l

/-- `_extract_cites(text)`: group ids of all citation markers, in order
(same fuel discipline as `subCitesF`). -/
def extractCitesF : Nat → Str → List Str
  | 0, _ => []
  | _, [] => []
  | fuel + 1, c :: cs =>
      match parseCite (c :: cs) with
      | some (g, rest) => g :: extractCitesF fuel rest
      | none => extractCitesF fuel cs

def extract_cites (l : Str) : List Str := extractCitesF l.length l

/-- After one citation marker of the `(?:\[id\]\s*)+` loop: greedily consume
`\s*` and further markers; return the input remaining after the match
(the trailing `\s*` of the last iteration is part of the match).  Fuel as
in `subCitesF`. -/
def citeChainF : Nat → Str → Str
  | 0, l => l
  | fuel + 1, l =>
      match parseCite (l.dropWhile Char.isWhitespace) with
      | some (_, r) => citeChainF fuel r
      | none => l.dropWhile Char.isWhitespace

def citeChain (l : Str) : Str := citeChainF l.length l

/-- `cite_prefix_re.match(seg)` for `^\s*(?:\[id\]\s*)+`: `none` when there
is no leading citation marker, else the input remaining after the match
(`seg[m.end():]`). -/
def citePrefixRest (l : Str) : Option Str :=
  match parseCite (l.dropWhile Char.isWhitespace) with
  | none => none
  | some (_, r) => some (citeChain r)

/-- The character class of `re.sub(r"[\\s,;:.\\-–—!?]+", "", ...)` exactly as
written in the source: because the raw string doubles the backslashes, the
class holds a literal backslash, the letter `s`, the punctuation marks, and
the range `\x5C`-`–` — and not whitespace. -/
def inStripClass (c : Char) : Bool :=
  c = '\\' || c = 's' || c = ',' || c = ';' || c = ':' || c = '.' ||
    (92 ≤ c.toNat && c.toNat ≤ 8211) || c = '—' || c = '!' || c = '?'

/-- `_SENTENCE_SPLIT_RE.split` for `(?<=[.!?])\s+`: cut at a whitespace
character whose predecessor is `.`, `!` or `?`; the remaining characters of
a whitespace run start the next segment and are removed by the per-segment
`strip()` that always follows. -/
def splitSentAux : Str → Str → List Str
  | [], acc => [acc.reverse]
  | c :: cs, acc =>
      let boundary := c.isWhitespace &&
        (match acc with
         | p :: _ => p = '.' || p = '!' || p = '?'
         | [] => false)
      if boundary then acc.reverse :: splitSentAux cs []
      else splitSentAux cs (c :: acc)

def splitSents (s : Str) : List Str := splitSentAux s []

/-- `str.splitlines()` on `\n`, `\r\n` and `\r` (the only line breaks the
embedded inputs contain). -/
def splitLinesAux : Str → Str → List Str
  | [], acc => if acc.isEmpty then [] else [acc.reverse]
  | '\r' :: '\n' :: cs, acc => acc.reverse :: splitLinesAux cs []
  | '\r' :: cs, acc => acc.reverse :: splitLinesAux cs []
  | '\n' :: cs, acc => acc.reverse :: splitLinesAux cs []
  | c :: cs, acc => splitLinesAux cs (c :: acc)

def splitLines (s : Str) : List Str := splitLinesAux s []

/-- The merge loop of `_split_claims`, with the accumulated claims kept in
reverse (`accRev.head` is `merged[-1]`). -/
def mergeSegs : List Str → List Str → List Str
  | accRev, [] => accRev.reverse
  | accRev, seg₀ :: rest =>
      let step : Str × List Str :=
        match accRev with
        | [] => (seg₀, [])
        | last :: tl =>
            match citePrefixRest seg₀ with
            | some r' =>
                let prefSeg := trimCL (seg₀.take (seg₀.length - r'.length))
                let restSeg := trimCL r'
                if !prefSeg.isEmpty && !restSeg.isEmpty then
                  (restSeg, trimCL (last ++ ' ' :: prefSeg) :: tl)
                else (seg₀, last :: tl)
            | none => (seg₀, last :: tl)
      let seg := step.1
      let remainder := (subCites seg).filter (fun c => !inStripClass c)
      let citesOnly := remainder.isEmpty && findCite seg
      match step.2 with
      | last :: tl =>
          if citesOnly then mergeSegs (trimCL (last ++ ' ' :: seg) :: tl) rest
          else mergeSegs (seg :: last :: tl) rest
      | [] => mergeSegs [seg] rest

/-- `_split_claims(answer, mode, max_claims)`. -/
def split_claims (answer : Str) (mode : Str) (max_claims : Nat) : List Str :=
  let a := trimCL answer
  if a.isEmpty then []
  else
    let raw := if mode = ("lines").data
      then ((splitLines a).map trimCL).filter (fun s => !s.isEmpty)
      else ((splitSents a).map trimCL).filter (fun s => !s.isEmpty)
    (mergeSegs [] raw).take (max 1 max_claims)

/-! ### core.py: citation reconciliation -/

/-- The per-token fallback chain of `_map_cites_to_known_ids`: exact match,
then (for purely numeric `n`) `S<n>` and `S<n-1>`, then (for `S<digits>`)
the bare digit suffix, else the token verbatim. -/
def resolve_cite (known : List Str) (c : Str) : Str :=
  if c ∈ known then c
  else
    let viaDigit : Option Str :=
      if isDigitStr c then
        let n := digitsToNat c
        if ('S' :: natDigits n) ∈ known then some ('S' :: natDigits n)
        else if 0 < n ∧ ('S' :: natDigits (n - 1)) ∈ known then
          some ('S' :: natDigits (n - 1))
        else none
      else none
    match viaDigit with
    | some r => r
    | none =>
        if c.take 1 = ['S'] ∧ isDigitStr (c.drop 1) ∧ (c.drop 1) ∈ known then
          c.drop 1
        else c

/-- The final dedup loop: keep the first occurrence of each resolved id. -/
def dedupSeen : List Str → List Str → List Str
  | _, [] => []
  | seen, c :: rest =>
      if c ∈ seen then dedupSeen seen rest
      else c :: dedupSeen (c :: seen) rest

/-- `_map_cites_to_known_ids(cites, known)`. -/
def map_cites_to_known_ids (cites : List Str) (known : List Str) : List Str :=
  dedupSeen [] (cites.map (resolve_cite known))

/-! ### trace_budget prompt construction -/

/-- The `Span` dataclass. -/
structure Span where
  sid : Str
  text : Str
deriving DecidableEq

/-- `re.sub(r"\s+", " ", ...)`: collapse every whitespace run to one blank;
the flag records whether the previous character was whitespace. -/
def collapseWsAux : Str → Bool → Str
  | [], _ => []
  | c :: cs, prev =>
      if c.isWhitespace then
        if prev then collapseWsAux cs true else ' ' :: collapseWsAux cs true
      else c :: collapseWsAux cs false

/-- `str.startswith(tuple)`. -/
def startsWithAny (ps : List Str) (l : Str) : Bool :=
  ps.any (fun p => p.isPrefixOf l)

/-- `^(word)\b` for one alternative of an anchored alternation. -/
def matchesWordAt (w l : Str) : Bool :=
  w.isPrefixOf l &&
    (match l.drop w.length with
     | [] => true
     | c :: _ => !isWordChar c)

/-- `^(w1|w2|...)\b`, e.g. `_WH_Q_RE` and `_AUX_Q_RE` on lowercased text. -/
def matchesAnyWord (ws : List Str) (l : Str) : Bool :=
  ws.any (fun w => matchesWordAt w l)

/-- `_span_kind(text)`: QUESTION / INSTRUCTION / EMPTY / ASSERTION. -/
def span_kind (text : Str) : Str :=
  let t := collapseWsAux (trimCL text) false
  if t.isEmpty then ("EMPTY").data
  else
    let lo := toLowerCL t
    if startsWithAny
        [("question:").data, ("q:").data, ("prompt:").data, ("task:").data]
        lo then
      ("QUESTION").data
    else if startsWithAny
        [("reply with").data, ("respond with").data, ("choose").data,
         ("select").data, ("options:").data, ("answers:").data, ("a)").data,
         ("b)").data, ("c)").data, ("d)").data, ("(a)").data, ("(b)").data,
         ("(c)").data, ("(d)").data] lo then
      ("INSTRUCTION").data
    else if t.getLast? = some '?' then ("QUESTION").data
    else if matchesAnyWord
        [("who").data, ("what").data, ("which").data, ("when").data,
         ("where").data, ("why").data, ("how").data] lo then
      ("QUESTION").data
    else if matchesAnyWord
        [("is").data, ("are").data, ("was").data, ("were").data, ("do").data,
         ("does").data, ("did").data, ("can").data, ("could").data,
         ("should").data, ("would").data, ("will").data, ("may").data,
         ("might").data, ("have").data, ("has").data, ("had").data] lo
        && (t.contains '?' || t.count ' ' < 12) then
      ("QUESTION").data
    else ("ASSERTION").data

/-- One `[sid] shown` line of the context block. -/
def spanLine (mask : Bool) (s : Span) : Str :=
  let kind := span_kind s.text
  let shown :=
    if mask && (kind = ("QUESTION").data || kind = ("INSTRUCTION").data
        || kind = ("EMPTY").data) then
      ("[NON-EVIDENCE:").data ++ kind ++ [']']
    else s.text
  '[' :: s.sid ++ ']' :: ' ' :: shown

/-- `_spans_block(spans, mask_nonassertive)`. -/
def spans_block (spans : List Span) (mask : Bool) : Str :=
  trimCL (joinSep ['\n'] (spans.map (spanLine mask)))

/-- `scrub_spans_by_id(spans, cites, placeholder)`. -/
def scrub_spans_by_id (spans : List Span) (cites : List Str)
    (placeholder : Str) : List Span :=
  spans.map (fun s =>
    if s.sid ∈ cites then ⟨s.sid, placeholder⟩ else ⟨s.sid, s.text⟩)

/-- `(mode or "all").strip().lower()`. -/
def normMode (mode : Str) : Str :=
  toLowerCL (trimCL (if mode.isEmpty then ("all").data else mode))

/-- `_select_context_spans(spans, cites, mode)`; `ValueError` as `.error`. -/
def select_context_spans (spans : List Span) (cites : List Str)
    (mode : Str) : Except Str (List Span) :=
  let m := normMode mode
  if m = ("all").data ∨ m = ("full").data then .ok spans
  else if m = ("auto").data then
    .ok (if cites.isEmpty then spans
         else spans.filter (fun s => decide (s.sid ∈ cites)))
  else if m = ("cited").data ∨ m = ("cite").data ∨ m = ("citations").data
      ∨ m = ("cites").data then
    .ok (spans.filter (fun s => decide (s.sid ∈ cites)))
  else .error ("Unknown context_mode").data

/-- The fixed text of `build_yes_prompt` before the `{ctx}` interpolation. -/
def tmplA : Str :=
  ("\nYou are a **strict textual entailment** verifier.\n\nDefinitions:\n- Only **declarative assertions** in the CONTEXT can entail facts.\n- **Questions, prompts, headings, and instructions do NOT assert facts** and do NOT entail their presuppositions.\n- Do **not** use world knowledge or plausibility; judge only whether the CLAIM follows from the asserted text.\n\nDecision rule:\n- Reply YES only if the CLAIM is explicitly stated or logically implied by at least one ASSERTION span.\n- Reply NO only if the CONTEXT explicitly contradicts the CLAIM.\n- Otherwise reply UNSURE (including when the CONTEXT contains only questions/instructions).\n\nCONTEXT SPANS:\n").data

/-- The fixed text between `{ctx}` and `{claim.strip()}`. -/
def tmplB : Str := ("\n\nCLAIM:\n").data

/-- The fixed text after `{claim.strip()}`. -/
def tmplC : Str :=
  ("\n\nQuestion: Is the CLAIM entailed by the CONTEXT?\n\nReply with EXACTLY one of these tokens (no punctuation, no extra text):\nYES\nNO\nUNSURE\n").data

/-- `build_yes_prompt(spans, claim)`: the interpolated template, stripped. -/
def build_yes_prompt (spans : List Span) (claim : Str) : Str :=
  trimCL (tmplA ++ spans_block spans true ++ tmplB ++ trimCL claim ++ tmplC)

/-- One step of `build_trace_budget_prompts` / the prompt-building loop of
`score_trace_budget`: the `(post_prompt, prior_prompt)` pair for a claim. -/
def step_prompts (spans : List Span) (cites : List Str) (claim : Str)
    (placeholder : Str) (mode : Str) : Except Str (Str × Str) :=
  match select_context_spans spans cites mode with
  | .error e => .error e
  | .ok ctx =>
      let post := build_yes_prompt ctx claim
      let null_spans :=
        if cites.isEmpty then
          scrub_spans_by_id ctx (ctx.map (·.sid)) placeholder
        else scrub_spans_by_id ctx cites placeholder
      .ok (post, build_yes_prompt null_spans claim)

/-! ### score_trace_budget and the entry points

The completion backend is an external collaborator: it is embedded as an
oracle mapping a batch of prompts to per-prompt logprobs sequences (or to a
raised error).  Transport parameters (model name, temperature,
`top_logprobs`, concurrency, timeouts) only reach the backend call and are
not modelled; `include_prompts`/`units`/summary formatting of the result
dicts is likewise kept to the fields the specification speaks about. -/

abbrev Backend := List Str → Except Str (List (List TokInfo))

/-- The `Step` dataclass. -/
structure Step where
  idx : Int
  claim : Str
  cites : List Str
  confidence : ℝ

/-- The `Trace` dataclass. -/
structure Trace where
  steps : List Step
  spans : List Span

/-- The `BudgetResult` dataclass. -/
structure BudgetResult where
  idx : Int
  claim : Str
  cites : List Str
  target : ℝ
  prior_yes : YesProb
  post_yes : YesProb
  required_bits_min : ℝ
  required_bits_max : ℝ
  observed_bits_min : ℝ
  observed_bits_max : ℝ
  budget_gap_min : ℝ
  budget_gap_max : ℝ
  flagged : Prop

/-- `score_trace_budget`: build both prompts per step (raising on a bad
context mode), submit the post batch then the prior batch, and turn each
result pair into a `BudgetResult` through `yesprob_from_logprobs` and
`_budget_from_intervals`. -/
noncomputable def score_trace_budget (trace : Trace) (backend : Backend)
    (mode placeholder : Str) : Except Str (List BudgetResult) :=
  if trace.steps.isEmpty then .ok []
  else do
    let prompts ← trace.steps.mapM (fun st =>
      step_prompts trace.spans st.cites st.claim placeholder mode)
    let post_results ← backend (prompts.map Prod.fst)
    let prior_results ← backend (prompts.map Prod.snd)
    (trace.steps.zip (post_results.zip prior_results)).mapM
      (fun (st, post_tr, prior_tr) => do
        let post_yes ← yesprob_from_logprobs post_tr
        let prior_yes ← yesprob_from_logprobs prior_tr
        let b := budget_from_intervals st.confidence
          prior_yes.p_yes_lower prior_yes.p_yes_upper
          post_yes.p_yes_lower post_yes.p_yes_upper
        pure (BudgetResult.mk st.idx st.claim st.cites st.confidence
          prior_yes post_yes b.req_min b.req_max b.obs_min b.obs_max
          b.gap_min b.gap_max b.flagged))

/-- A raw span dict `{"sid": ..., "text": ...}`. -/
structure RawSpan where
  sid : Str
  text : Str

/-- A raw step dict of `audit_trace_budget`. -/
structure RawStep where
  idx : Option Int
  claim : Str
  cites : List Str
  confidence : Option ℝ

/-- `_normalize_spans`: strip, drop entries with an empty sid or text. -/
def normalize_spans (spans : List RawSpan) : List Span :=
  spans.filterMap (fun s =>
    let sid := trimCL s.sid
    let text := trimCL s.text
    if !sid.isEmpty && !text.isEmpty then some ⟨sid, text⟩ else none)

open Classical in
/-- `_normalize_steps`: strip claims and drop empty ones, default the index
to the position, strip citations, default a missing or falsy (`0.0`)
confidence, then sort (stably) by `idx`. -/
noncomputable def normalize_steps (steps : List RawStep)
    (default_target : ℝ) : List Step :=
  (steps.enum.filterMap (fun p =>
      let claim := trimCL p.2.claim
      if claim.isEmpty then none
      else
        some (Step.mk (p.2.idx.getD (p.1 : Int)) claim
          ((p.2.cites.map trimCL).filter (fun c => !c.isEmpty))
          (match p.2.confidence with
           | some c => if c = 0 then default_target else c
           | none => default_target)))).mergeSort
    (fun a b => a.idx ≤ b.idx)

/-- One entry of the `details` list, restricted to the audited fields. -/
structure Detail where
  idx : Int
  claim : Str
  cites : List Str
  flagged : Prop
  missing_citations : Bool

/-- The result object of the two entry points, restricted to the audited
fields (`flagged`, `under_budget`, `error`, `details`). -/
structure RunResult where
  flagged : Prop
  under_budget : Prop
  error : Option Str
  details : List Detail

/-- The structured error object `{"flagged": True, "under_budget": True,
"error": msg, "details": []}`. -/
def errResult (msg : Str) : RunResult := ⟨True, True, some msg, []⟩

def msgNoSpans : Str := ("No spans provided (cannot verify citations).").data

def msgOpenAIOnly : Str :=
  ("Only the OpenAI backend is supported in Berry right now (AOAI/local LLM not implemented).").data

/-- The shared result shaping: per-claim details plus the
`require_citations` forced-flag pass. -/
def resultDetails (results : List BudgetResult)
    (require_citations : Bool) : List Detail :=
  results.map (fun r =>
    Detail.mk r.idx r.claim r.cites
      (r.flagged ∨ (require_citations ∧ r.cites.isEmpty))
      (require_citations && r.cites.isEmpty))

/-- `run_detect_hallucination` (core.py), over the backend oracle; the
`citation_regex` option is left at its default `_DEFAULT_CITE_RE`.  A raised
exception is the `.error` case of the result. -/
noncomputable def run_detect_hallucination (answer : Str)
    (spans : List RawSpan) (default_target : ℝ) (placeholder : Str)
    (max_claims : Nat) (claim_split : Str) (context_mode : Str)
    (require_citations : Bool) (pool_json_path local_llm_model_path : Bool)
    (backend : Backend) : Except Str RunResult :=
  let span_objs := normalize_spans spans
  if span_objs.isEmpty then .ok (errResult msgNoSpans)
  else if pool_json_path || local_llm_model_path then
    .ok (errResult msgOpenAIOnly)
  else
    let known := span_objs.map (·.sid)
    let claims := split_claims answer claim_split max_claims
    let steps := claims.enum.map (fun p =>
      Step.mk (p.1 : Int) p.2
        (map_cites_to_known_ids (extract_cites p.2) known) default_target)
    match score_trace_budget ⟨steps, span_objs⟩ backend context_mode
        placeholder with
    | .error e => .error e
    | .ok results =>
        let details := resultDetails results require_citations
        .ok ⟨∃ d ∈ details, d.flagged, ∃ d ∈ details, d.flagged, none,
          details⟩

/-- `run_audit_trace_budget` (core.py), over the backend oracle.  Note: the
prompts are reconstructed (and a bad context mode raises) before the
unsupported-backend check, and there is no empty-span-pool check. -/
noncomputable def run_audit_trace_budget (steps : List RawStep)
    (spans : List RawSpan) (default_target : ℝ) (placeholder : Str)
    (context_mode : Str) (require_citations : Bool) (include_prompts : Bool)
    (pool_json_path local_llm_model_path : Bool) (backend : Backend) :
    Except Str RunResult :=
  let span_objs := normalize_spans spans
  let step_objs := normalize_steps steps default_target
  match (if include_prompts then
      (step_objs.mapM (fun st =>
        step_prompts span_objs st.cites st.claim placeholder
          context_mode)).map (fun x => some x)
    else .ok none) with
  | .error e => .error e
  | .ok _ =>
      if pool_json_path || local_llm_model_path then
        .ok (errResult msgOpenAIOnly)
      else
        match score_trace_budget ⟨step_objs, span_objs⟩ backend context_mode
            placeholder with
        | .error e => .error e
        | .ok results =>
            let details := resultDetails results require_citations
            .ok ⟨∃ d ∈ details, d.flagged, ∃ d ∈ details, d.flagged, none,
              details⟩

/-! ## Lemmas about the numeric core -/

theorem eps_pos : (0:ℝ) < eps := by unfold eps; norm_num

theorem eps_lt_one_sub : eps < 1 - eps := by unfold eps; norm_num

theorem le_safe_clip (x : ℝ) : eps ≤ safe_clip x :=
  le_min (le_max_right _ _) eps_lt_one_sub.le

theorem safe_clip_le (x : ℝ) : safe_clip x ≤ 1 - eps := min_le_right _ _

theorem safe_clip_eps : safe_clip eps = eps := by
  unfold safe_clip
  rw [max_self, min_eq_left eps_lt_one_sub.le]

theorem safe_clip_max_eps (p : ℝ) : safe_clip (max p eps) = safe_clip p := by
  unfold safe_clip
  rw [max_assoc, max_self]

theorem kl_congr_right {a b b' : ℝ} (h : safe_clip b = safe_clip b') :
    kl_bernoulli a b = kl_bernoulli a b' := by
  unfold kl_bernoulli; rw [h]

/-- For clipped first argument at least `1/2`, the KL divergence to any
second argument is at most the KL divergence to the floor `eps`: the
required-information bound `KL(target‖ε)` dominates. -/
theorem kl_le_kl_eps {a b : ℝ} (ha : 1/2 ≤ a) :
    kl_bernoulli a b ≤ kl_bernoulli a eps := by
  have he : (0:ℝ) < eps := eps_pos
  have he2 : eps ≤ 1 - eps := eps_lt_one_sub.le
  have he3 : (0:ℝ) < 1 - eps := by linarith
  have hA1 : eps ≤ safe_clip a := le_safe_clip a
  have hA2 : safe_clip a ≤ 1 - eps := safe_clip_le a
  have hAhalf : 1/2 ≤ safe_clip a :=
    le_min (le_trans ha (le_max_left _ _)) (by unfold eps; norm_num)
  have hB1 : eps ≤ safe_clip b := le_safe_clip b
  have hB2 : safe_clip b ≤ 1 - eps := safe_clip_le b
  unfold kl_bernoulli
  rw [safe_clip_eps]
  set A := safe_clip a with hA
  set B := safe_clip b with hB
  have hApos : 0 < A := lt_of_lt_of_le he hA1
  have hBpos : 0 < B := lt_of_lt_of_le he hB1
  have hA1' : 0 < 1 - A := by linarith
  have hB1' : 0 < 1 - B := by linarith
  rw [Real.log_div hApos.ne' hBpos.ne', Real.log_div hA1'.ne' hB1'.ne',
    Real.log_div hApos.ne' he.ne', Real.log_div hA1'.ne' he3.ne']
  have hX : Real.log eps ≤ Real.log B := Real.log_le_log he hB1
  have hY : Real.log (1 - B) ≤ Real.log (1 - eps) :=
    Real.log_le_log hB1' (by linarith)
  have hprod : eps * (1 - eps) ≤ B * (1 - B) := by nlinarith
  have hXY : Real.log eps + Real.log (1 - eps) ≤
      Real.log B + Real.log (1 - B) := by
    rw [← Real.log_mul he.ne' he3.ne', ← Real.log_mul hBpos.ne' hB1'.ne']
    exact Real.log_le_log (by positivity) hprod
  nlinarith [mul_nonneg (by linarith : (0:ℝ) ≤ A - 1/2)
      (by linarith : (0:ℝ) ≤ Real.log B - Real.log eps),
    mul_nonneg (by norm_num : (0:ℝ) ≤ (1:ℝ)/2)
      (by linarith : (0:ℝ) ≤ (Real.log B - Real.log eps) -
        (Real.log (1 - eps) - Real.log (1 - B))),
    mul_nonneg (by linarith : (0:ℝ) ≤ A - 1/2)
      (by linarith : (0:ℝ) ≤ Real.log (1 - eps) - Real.log (1 - B))]

theorem budget_req_min_def (t a b c d : ℝ) :
    (budget_from_intervals t a b c d).req_min = kl_bernoulli t b := rfl

theorem budget_req_max_def (t a b c d : ℝ) :
    (budget_from_intervals t a b c d).req_max =
      kl_bernoulli t (max a eps) := rfl

theorem budget_obs_min_def (t a b c d : ℝ) :
    (budget_from_intervals t a b c d).obs_min =
      min (min (min (kl_bernoulli c a) (kl_bernoulli c b))
        (kl_bernoulli d a)) (kl_bernoulli d b) := rfl

theorem budget_obs_max_def (t a b c d : ℝ) :
    (budget_from_intervals t a b c d).obs_max =
      max (max (max (kl_bernoulli c a) (kl_bernoulli c b))
        (kl_bernoulli d a)) (kl_bernoulli d b) := rfl

/-! ## C1 -/

/-- C1: for every interval input of a scored claim, `_budget_from_intervals`
returns as `[observed_min, observed_max]` exactly the least and greatest of
the Bernoulli KL divergences `KL(p_post‖p_prior)` over the four
posterior/prior corner combinations, as gap interval
`[required_min − observed_max, required_max − observed_min]`, and sets the
flagged verdict exactly when `required_min > observed_max` strictly. -/
theorem c1_observed_gap_flag (target p0_lo p0_hi p1_lo p1_hi : ℝ) :
    IsLeast {x : ℝ | ∃ p1 ∈ ({p1_lo, p1_hi} : Set ℝ),
        ∃ p0 ∈ ({p0_lo, p0_hi} : Set ℝ), x = kl_bernoulli p1 p0}
      (budget_from_intervals target p0_lo p0_hi p1_lo p1_hi).obs_min ∧
    IsGreatest {x : ℝ | ∃ p1 ∈ ({p1_lo, p1_hi} : Set ℝ),
        ∃ p0 ∈ ({p0_lo, p0_hi} : Set ℝ), x = kl_bernoulli p1 p0}
      (budget_from_intervals target p0_lo p0_hi p1_lo p1_hi).obs_max ∧
    (budget_from_intervals target p0_lo p0_hi p1_lo p1_hi).gap_min =
      (budget_from_intervals target p0_lo p0_hi p1_lo p1_hi).req_min -
        (budget_from_intervals target p0_lo p0_hi p1_lo p1_hi).obs_max ∧
    (budget_from_intervals target p0_lo p0_hi p1_lo p1_hi).gap_max =
      (budget_from_intervals target p0_lo p0_hi p1_lo p1_hi).req_max -
        (budget_from_intervals target p0_lo p0_hi p1_lo p1_hi).obs_min ∧
    ((budget_from_intervals target p0_lo p0_hi p1_lo p1_hi).flagged ↔
      (budget_from_intervals target p0_lo p0_hi p1_lo p1_hi).obs_max <
        (budget_from_intervals target p0_lo p0_hi p1_lo p1_hi).req_min) := by
  set v1 := kl_bernoulli p1_lo p0_lo with hv1
  set v2 := kl_bernoulli p1_lo p0_hi with hv2
  set v3 := kl_bernoulli p1_hi p0_lo with hv3
  set v4 := kl_bernoulli p1_hi p0_hi with hv4
  have hmin : (budget_from_intervals target p0_lo p0_hi p1_lo p1_hi).obs_min
      = min (min (min v1 v2) v3) v4 := rfl
  have hmax : (budget_from_intervals target p0_lo p0_hi p1_lo p1_hi).obs_max
      = max (max (max v1 v2) v3) v4 := rfl
  have hm1 : min (min (min v1 v2) v3) v4 ≤ v1 :=
    le_trans (le_trans (min_le_left _ _) (min_le_left _ _)) (min_le_left _ _)
  have hm2 : min (min (min v1 v2) v3) v4 ≤ v2 :=
    le_trans (le_trans (min_le_left _ _) (min_le_left _ _)) (min_le_right _ _)
  have hm3 : min (min (min v1 v2) v3) v4 ≤ v3 :=
    le_trans (min_le_left _ _) (min_le_right _ _)
  have hm4 : min (min (min v1 v2) v3) v4 ≤ v4 := min_le_right _ _
  have hM1 : v1 ≤ max (max (max v1 v2) v3) v4 :=
    le_trans (le_trans (le_max_left _ _) (le_max_left _ _)) (le_max_left _ _)
  have hM2 : v2 ≤ max (max (max v1 v2) v3) v4 :=
    le_trans (le_trans (le_max_right _ _) (le_max_left _ _)) (le_max_left _ _)
  have hM3 : v3 ≤ max (max (max v1 v2) v3) v4 :=
    le_trans (le_max_right _ _) (le_max_left _ _)
  have hM4 : v4 ≤ max (max (max v1 v2) v3) v4 := le_max_right _ _
  refine ⟨⟨?_, ?_⟩, ⟨?_, ?_⟩, rfl, rfl, Iff.rfl⟩
  · rw [hmin]
    rcases min_choice (min (min v1 v2) v3) v4 with h | h
    · rw [h]
      rcases min_choice (min v1 v2) v3 with h' | h'
      · rw [h']
        rcases min_choice v1 v2 with h'' | h''
        · exact ⟨p1_lo, by simp, p0_lo, by simp, h''⟩
        · exact ⟨p1_lo, by simp, p0_hi, by simp, h''⟩
      · exact ⟨p1_hi, by simp, p0_lo, by simp, h'⟩
    · exact ⟨p1_hi, by simp, p0_hi, by simp, h⟩
  · rintro x ⟨p1, hp1, p0, hp0, rfl⟩
    rw [hmin]
    rcases hp1 with hp1 | hp1 <;> rcases hp0 with hp0 | hp0 <;>
      simp only [Set.mem_singleton_iff] at * <;> subst hp1 <;> subst hp0
    · exact hm1
    · exact hm2
    · exact hm3
    · exact hm4
  · rw [hmax]
    rcases max_choice (max (max v1 v2) v3) v4 with h | h
    · rw [h]
      rcases max_choice (max v1 v2) v3 with h' | h'
      · rw [h']
        rcases max_choice v1 v2 with h'' | h''
        · exact ⟨p1_lo, by simp, p0_lo, by simp, h''⟩
        · exact ⟨p1_lo, by simp, p0_hi, by simp, h''⟩
      · exact ⟨p1_hi, by simp, p0_lo, by simp, h'⟩
    · exact ⟨p1_hi, by simp, p0_hi, by simp, h⟩
  · rintro x ⟨p1, hp1, p0, hp0, rfl⟩
    rw [hmax]
    rcases hp1 with hp1 | hp1 <;> rcases hp0 with hp0 | hp0 <;>
      simp only [Set.mem_singleton_iff] at * <;> subst hp1 <;> subst hp0
    · exact hM1
    · exact hM2
    · exact hM3
    · exact hM4

/-! ## C2 -/

/-- C2 counterexample: at target `1/2` (inside `(0,1)`) with prior interval
`[1/2, 1]` and posterior interval `[0, 1]` (both well-ordered), the computed
required interval is inverted: `required_min > required_max`, because
`KL(1/2 ‖ clip(1))` is strictly positive while `KL(1/2 ‖ 1/2) = 0`. -/
theorem c2_counterexample :
    ((0:ℝ) < 1/2 ∧ (1/2:ℝ) < 1 ∧ (1/2:ℝ) ≤ 1 ∧ (0:ℝ) ≤ 1) ∧
    ¬ ((budget_from_intervals (1/2) (1/2) 1 0 1).req_min ≤
        (budget_from_intervals (1/2) (1/2) 1 0 1).req_max) := by
  have clip_half : safe_clip (1/2 : ℝ) = 1/2 := by
    unfold safe_clip
    rw [max_eq_left (by unfold eps; norm_num),
      min_eq_left (by unfold eps; norm_num)]
  have clip_one : safe_clip (1 : ℝ) = 1 - eps := by
    unfold safe_clip
    rw [max_eq_left (by unfold eps; norm_num),
      min_eq_right (by unfold eps; norm_num)]
  have hmax0 : max (1/2 : ℝ) eps = 1/2 := max_eq_left (by unfold eps; norm_num)
  have hreqmax : (budget_from_intervals (1/2) (1/2) 1 0 1).req_max = 0 := by
    rw [budget_req_max_def, hmax0]
    unfold kl_bernoulli
    rw [clip_half]
    norm_num
  have he : (0:ℝ) < eps := eps_pos
  have he3 : (0:ℝ) < 1 - eps := by
    have := eps_lt_one_sub; linarith
  have hx : (0:ℝ) < (1/2) / (1 - eps) := by positivity
  have hy : (0:ℝ) < (1/2) / eps := by positivity
  have hgt : 1 < ((1/2:ℝ) / (1 - eps)) * ((1/2) / eps) := by
    unfold eps; norm_num
  have hreqmin : 0 < (budget_from_intervals (1/2) (1/2) 1 0 1).req_min := by
    rw [budget_req_min_def]
    unfold kl_bernoulli
    rw [clip_half, clip_one,
      show (1:ℝ) - (1 - eps) = eps by ring, show (1:ℝ) - 1/2 = 1/2 by norm_num]
    have hsum : Real.log ((1/2) / (1 - eps)) + Real.log ((1/2) / eps) =
        Real.log (((1/2) / (1 - eps)) * ((1/2) / eps)) :=
      (Real.log_mul hx.ne' hy.ne').symm
    have := Real.log_pos hgt
    linarith
  refine ⟨⟨by norm_num, by norm_num, by norm_num, by norm_num⟩, fun h => ?_⟩
  rw [hreqmax] at h
  linarith

/-- C2 as amended: the observed interval is always well-ordered, and the
required interval is well-ordered whenever the prior interval is a point
(`p_prior_lower = p_prior_upper`, as produced by an observed `YES` mass) or
of the shape `[p_lo ≤ ε, p_hi]` with a target of at least `1/2` (as produced
when no `YES` alternative was observed); for other prior intervals it can be
inverted. -/
theorem c2_interval_monotonicity (target p0_lo p0_hi p1_lo p1_hi : ℝ) :
    (budget_from_intervals target p0_lo p0_hi p1_lo p1_hi).obs_min ≤
      (budget_from_intervals target p0_lo p0_hi p1_lo p1_hi).obs_max ∧
    (p0_lo = p0_hi →
      (budget_from_intervals target p0_lo p0_hi p1_lo p1_hi).req_min ≤
        (budget_from_intervals target p0_lo p0_hi p1_lo p1_hi).req_max) ∧
    (p0_lo ≤ eps → 1/2 ≤ target →
      (budget_from_intervals target p0_lo p0_hi p1_lo p1_hi).req_min ≤
        (budget_from_intervals target p0_lo p0_hi p1_lo p1_hi).req_max) := by
  refine ⟨?_, ?_, ?_⟩
  · rw [budget_obs_min_def, budget_obs_max_def]
    exact le_trans (min_le_right _ _) (le_max_right _ _)
  · intro h
    rw [budget_req_min_def, budget_req_max_def, h]
    exact le_of_eq (kl_congr_right (safe_clip_max_eps p0_hi)).symm
  · intro hlo hhalf
    rw [budget_req_min_def, budget_req_max_def, max_eq_right hlo]
    exact kl_le_kl_eps hhalf

/-- Witness for `c2_interval_monotonicity` at target `0.95`, prior `[0, 1]`,
posterior `[0, 1]`. -/
theorem c2_interval_monotonicity_witness :
    ((0:ℝ) ≤ eps) ∧ ((1:ℝ)/2 ≤ 0.95) ∧ ((0:ℝ) = 0) ∧
    ((budget_from_intervals 0.95 0 1 0 1).obs_min ≤
      (budget_from_intervals 0.95 0 1 0 1).obs_max) ∧
    ((budget_from_intervals 0.95 0 1 0 1).req_min ≤
      (budget_from_intervals 0.95 0 1 0 1).req_max) ∧
    ((budget_from_intervals 0.95 0 0 0 1).req_min ≤
      (budget_from_intervals 0.95 0 0 0 1).req_max) :=
  ⟨eps_pos.le, by norm_num, rfl,
    (c2_interval_monotonicity 0.95 0 1 0 1).1,
    (c2_interval_monotonicity 0.95 0 1 0 1).2.2 eps_pos.le (by norm_num),
    (c2_interval_monotonicity 0.95 0 0 0 1).2.1 rfl⟩

/-! ## Lemmas about the dedup loop, and C4 -/

theorem dedupSeen_sublist (seen l : List Str) :
    List.Sublist (dedupSeen seen l) l := by
  induction l generalizing seen with
  | nil => simp [dedupSeen]
  | cons c rest ih =>
      unfold dedupSeen
      split
      · exact (ih seen).trans (List.sublist_cons_self c rest)
      · exact (ih (c :: seen)).cons₂ c

theorem mem_dedupSeen (seen l : List Str) (x : Str) :
    x ∈ dedupSeen seen l ↔ x ∈ l ∧ x ∉ seen := by
  induction l generalizing seen with
  | nil => simp [dedupSeen]
  | cons c rest ih =>
      unfold dedupSeen
      split
      · rename_i hc
        rw [ih]
        simp only [List.mem_cons]
        constructor
        · rintro ⟨hx, hns⟩
          exact ⟨Or.inr hx, hns⟩
        · rintro ⟨hx | hx, hns⟩
          · subst hx; exact absurd hc hns
          · exact ⟨hx, hns⟩
      · rename_i hc
        simp only [List.mem_cons, ih]
        constructor
        · rintro (rfl | ⟨hx, hns⟩)
          · exact ⟨Or.inl rfl, hc⟩
          · exact ⟨Or.inr hx, fun hs => hns (Or.inr hs)⟩
        · rintro ⟨rfl | hx, hns⟩
          · exact Or.inl rfl
          · by_cases hxc : x = c
            · exact Or.inl hxc
            · exact Or.inr ⟨hx, by simp [hxc, hns]⟩

theorem dedupSeen_nodup (seen l : List Str) : (dedupSeen seen l).Nodup := by
  induction l generalizing seen with
  | nil => simp [dedupSeen]
  | cons c rest ih =>
      unfold dedupSeen
      split
      · exact ih seen
      · refine List.nodup_cons.2 ⟨fun hmem => ?_, ih (c :: seen)⟩
        exact ((mem_dedupSeen (c :: seen) rest c).1 hmem).2 (List.mem_cons_self c seen)

/-- C4: every raw citation token is resolved through the fallback chain
(exact id; purely numeric `n` to `S<n>` then `S<n-1>`; `S<digits>` to the
bare digit suffix; else kept verbatim), and the resolved list is then
deduplicated preserving first-seen order: the output is a duplicate-free
subsequence of the resolved tokens containing each of them. -/
theorem c4_citation_reconciliation (known cites : List Str) :
    (map_cites_to_known_ids cites known =
      dedupSeen [] (cites.map (resolve_cite known)) ∧
     (map_cites_to_known_ids cites known).Nodup ∧
     List.Sublist (map_cites_to_known_ids cites known)
       (cites.map (resolve_cite known)) ∧
     (∀ x, x ∈ map_cites_to_known_ids cites known ↔
       x ∈ cites.map (resolve_cite known))) ∧
    (∀ c, (c ∈ known → resolve_cite known c = c) ∧
      (c ∉ known → isDigitStr c = true →
        ('S' :: natDigits (digitsToNat c)) ∈ known →
        resolve_cite known c = 'S' :: natDigits (digitsToNat c)) ∧
      (c ∉ known → isDigitStr c = true →
        ('S' :: natDigits (digitsToNat c)) ∉ known →
        0 < digitsToNat c →
        ('S' :: natDigits (digitsToNat c - 1)) ∈ known →
        resolve_cite known c = 'S' :: natDigits (digitsToNat c - 1)) ∧
      (c ∉ known → isDigitStr c = true →
        ('S' :: natDigits (digitsToNat c)) ∉ known →
        ¬ (0 < digitsToNat c ∧
          ('S' :: natDigits (digitsToNat c - 1)) ∈ known) →
        resolve_cite known c = c) ∧
      (c ∉ known → isDigitStr c = false → c.take 1 = ['S'] →
        isDigitStr (c.drop 1) = true → (c.drop 1) ∈ known →
        resolve_cite known c = c.drop 1) ∧
      (c ∉ known → isDigitStr c = false →
        ¬ (c.take 1 = ['S'] ∧ isDigitStr (c.drop 1) = true ∧
          (c.drop 1) ∈ known) →
        resolve_cite known c = c)) := by
  constructor
  · refine ⟨rfl, dedupSeen_nodup [] _, dedupSeen_sublist [] _, fun x => ?_⟩
    rw [show map_cites_to_known_ids cites known =
      dedupSeen [] (cites.map (resolve_cite known)) from rfl, mem_dedupSeen]
    simp
  · intro c
    refine ⟨fun h => ?_, fun h hd hS => ?_, fun h hd hS hn hS1 => ?_,
      fun h hd hS hno => ?_, fun h hd h1 h2 h3 => ?_, fun h hd hno => ?_⟩
    · simp [resolve_cite, h]
    · simp [resolve_cite, h, hd, hS]
    · simp [resolve_cite, h, hd, hS, hn, hS1]
    · have htake : ¬ (c.take 1 = ['S'] ∧ isDigitStr (c.drop 1) = true ∧
          (c.drop 1) ∈ known) := by
        rintro ⟨ht, -, -⟩
        cases c with
        | nil => simp [isDigitStr] at hd
        | cons c0 cr =>
            simp only [List.take, List.cons.injEq] at ht
            have : c0.isDigit = true := by
              have := hd
              simp [isDigitStr, List.all_cons] at this
              exact this.1
            rw [ht.1] at this
            exact absurd this (by decide)
      simp only [resolve_cite, if_neg h, hd, if_true, if_neg hS, if_neg hno]
      rw [if_neg htake]
    · have h2' := h2
      have h3' := h3
      simp only [List.drop_one] at h2' h3'
      simp [resolve_cite, h, hd, h1, h2', h3', List.drop_one]
    · simp only [resolve_cite, if_neg h, hd, Bool.false_eq_true, if_false]
      rw [if_neg hno]

/-- Witness for `c4_citation_reconciliation` on the pool
`{S0, S1, 7}` and the tokens `S0, 1, 2, S7, X, S0`. -/
theorem c4_citation_reconciliation_witness :
    (map_cites_to_known_ids
        [("S0").data, ("1").data, ("2").data, ("S7").data, ("X").data,
          ("S0").data]
        [("S0").data, ("S1").data, ("7").data]).Nodup ∧
    resolve_cite [("S0").data, ("S1").data, ("7").data] (("S0").data) =
      ("S0").data ∧
    resolve_cite [("S0").data, ("S1").data, ("7").data] (("1").data) =
      'S' :: natDigits 1 ∧
    resolve_cite [("S0").data, ("S1").data, ("7").data] (("2").data) =
      'S' :: natDigits 1 ∧
    resolve_cite [("S0").data, ("S1").data, ("7").data] (("S7").data) =
      ("7").data ∧
    resolve_cite [("S0").data, ("S1").data, ("7").data] (("X").data) =
      ("X").data :=
  ⟨((c4_citation_reconciliation [("S0").data, ("S1").data, ("7").data]
      [("S0").data, ("1").data, ("2").data, ("S7").data, ("X").data,
        ("S0").data]).1.2.1),
   ((c4_citation_reconciliation [("S0").data, ("S1").data, ("7").data]
      []).2 (("S0").data)).1 (by decide),
   (((c4_citation_reconciliation [("S0").data, ("S1").data, ("7").data]
      []).2 (("1").data)).2.1 (by decide) (by decide) (by decide)),
   (((c4_citation_reconciliation [("S0").data, ("S1").data, ("7").data]
      []).2 (("2").data)).2.2.1 (by decide) (by decide) (by decide)
      (by decide) (by decide)),
   (((c4_citation_reconciliation [("S0").data, ("S1").data, ("7").data]
      []).2 (("S7").data)).2.2.2.2.1 (by decide) (by decide) (by decide)
      (by decide) (by decide)),
   (((c4_citation_reconciliation [("S0").data, ("S1").data, ("7").data]
      []).2 (("X").data)).2.2.2.2.2 (by decide) (by decide) (by decide))⟩

/-! ## C6 -/

/-- C6 as amended: context-mode dispatch happens on the trimmed, lowercased
mode with the empty mode defaulting to `all`.  `all`/`full` select every
span; `cited` — and equally its synonyms `cite`, `citations`, `cites` —
selects exactly the spans whose sid the claim cites; `auto` selects the
cited spans when any citation exists, else all spans; every other
normalized mode raises. -/
theorem c6_context_selection (spans : List Span) (cites : List Str)
    (mode : Str) :
    (normMode mode = ("all").data ∨ normMode mode = ("full").data →
      select_context_spans spans cites mode = .ok spans) ∧
    (normMode mode = ("cited").data ∨ normMode mode = ("cite").data ∨
      normMode mode = ("citations").data ∨ normMode mode = ("cites").data →
      select_context_spans spans cites mode =
        .ok (spans.filter (fun s => decide (s.sid ∈ cites)))) ∧
    (normMode mode = ("auto").data →
      select_context_spans spans cites mode =
        .ok (if cites.isEmpty then spans
          else spans.filter (fun s => decide (s.sid ∈ cites)))) ∧
    (∀ s, s ∈ spans.filter (fun s => decide (s.sid ∈ cites)) ↔
      s ∈ spans ∧ s.sid ∈ cites) ∧
    (normMode mode ∉ [("all").data, ("full").data, ("auto").data,
        ("cited").data, ("cite").data, ("citations").data, ("cites").data] →
      select_context_spans spans cites mode = .error ("Unknown context_mode").data) := by
  refine ⟨?_, ?_, ?_, ?_, ?_⟩
  · intro h
    simp only [select_context_spans]
    rw [if_pos h]
  · intro h
    simp only [select_context_spans]
    rcases h with h | h | h | h <;> rw [h] <;>
      rw [if_neg (by decide), if_neg (by decide), if_pos (by decide)]
  · intro h
    simp only [select_context_spans]
    rw [h, if_neg (by decide), if_pos rfl]
  · intro s
    simp [List.mem_filter]
  · intro h
    simp only [List.mem_cons, not_or] at h
    obtain ⟨h1, h2, h3, h4, h5, h6, h7, -⟩ := h
    simp only [select_context_spans]
    rw [if_neg (by tauto), if_neg h3, if_neg (by tauto)]

/-- Witness for `c6_context_selection` with mode `" CITED "`, pool `{S0, S1}`
and citations `{S0}`. -/
theorem c6_context_selection_witness :
    (normMode ((" CITED ").data) = ("cited").data ∨
      normMode ((" CITED ").data) = ("cite").data ∨
      normMode ((" CITED ").data) = ("citations").data ∨
      normMode ((" CITED ").data) = ("cites").data) ∧
    select_context_spans
        [Span.mk (("S0").data) (("water").data),
         Span.mk (("S1").data) (("rock").data)]
        [("S0").data] ((" CITED ").data) =
      .ok ([Span.mk (("S0").data) (("water").data),
            Span.mk (("S1").data) (("rock").data)].filter
        (fun s => decide (s.sid ∈ [("S0").data]))) :=
  ⟨by decide,
    (c6_context_selection
      [Span.mk (("S0").data) (("water").data),
       Span.mk (("S1").data) (("rock").data)]
      [("S0").data] ((" CITED ").data)).2.1 (by decide)⟩

/-- C6 counterexample: `cites` is a context mode other than
`all`/`full`/`cited`/`auto`, yet the selection succeeds (returning the cited
spans) instead of failing, so "any other mode is an error" is false as
stated. -/
theorem c6_counterexample :
    (("cites").data ≠ ("all").data ∧ ("cites").data ≠ ("full").data ∧
      ("cites").data ≠ ("cited").data ∧ ("cites").data ≠ ("auto").data) ∧
    select_context_spans [Span.mk (("S0").data) (("water").data)]
        [("S0").data] (("cites").data) =
      .ok [Span.mk (("S0").data) (("water").data)] := by decide

/-! ## C3: the yes-probability estimator -/

/-- C3: on a top-K distribution, when at least one alternative's trimmed,
upper-cased text equals `YES`, both bounds equal the clamped sum of
`exp(logprob)` over exactly those alternatives; when none does, the lower
bound is `0` and the upper bound is `exp(kth_logprob)` when the k-th bound
is available (always finite over `ℝ`), else `1`. -/
theorem c3_yes_mass_bounds (t : TokenTopK) :
    ((∃ p ∈ t.topk_logprobs, toUpperCL (trimCL p.1) = ("YES").data) →
      (yesprob_of_topk t).p_yes_lower = (yesprob_of_topk t).p_yes_upper ∧
      (yesprob_of_topk t).p_yes_lower =
        min (max (((yesEntries t.topk_logprobs).map
          (fun p => Real.exp ((p.2 : ℝ)))).sum) 0) 1) ∧
    ((¬ ∃ p ∈ t.topk_logprobs, toUpperCL (trimCL p.1) = ("YES").data) →
      (yesprob_of_topk t).p_yes_lower = 0 ∧
      (yesprob_of_topk t).p_yes_upper =
        (match t.kth_logprob with
         | some k => Real.exp ((k : ℝ))
         | none => (1:ℝ))) := by
  constructor
  · intro hex
    have hmem : yesEntries t.topk_logprobs ≠ [] := by
      rcases hex with ⟨p, hp, hcond⟩
      exact List.ne_nil_of_mem (List.mem_filter.2 ⟨hp, by simp [hcond]⟩)
    have hne : ((yesEntries t.topk_logprobs).map Prod.snd).isEmpty = false := by
      cases hY : yesEntries t.topk_logprobs with
      | nil => exact absurd hY hmem
      | cons a l => simp [hY]
    have hred : yesprob_of_topk t =
        ⟨min (max (((yesEntries t.topk_logprobs).map Prod.snd).map
            (fun (lp : ℚ) => Real.exp ((lp : ℝ)))).sum 0) 1,
         min (max (((yesEntries t.topk_logprobs).map Prod.snd).map
            (fun (lp : ℚ) => Real.exp ((lp : ℝ)))).sum 0) 1,
         t.generated_token, t.generated_logprob, t.kth_logprob,
         t.topk_logprobs⟩ := by
      simp only [yesprob_of_topk, hne, Bool.false_eq_true, if_false]
    rw [hred]
    exact ⟨rfl, by rw [List.map_map]; rfl⟩
  · intro hnex
    have hmem : yesEntries t.topk_logprobs = [] := by
      rw [yesEntries, List.filter_eq_nil_iff]
      intro p hp
      simp only [decide_eq_true_eq]
      exact fun hc => hnex ⟨p, hp, hc⟩
    have hred : yesprob_of_topk t =
        ⟨0,
         (match t.kth_logprob with
          | some k => Real.exp ((k : ℝ))
          | none => (1:ℝ)),
         t.generated_token, t.generated_logprob, t.kth_logprob,
         t.topk_logprobs⟩ := by
      simp only [yesprob_of_topk, hmem, List.map_nil, List.isEmpty_nil,
        if_true]
    rw [hred]
    exact ⟨rfl, rfl⟩

/-- Witness for `c3_yes_mass_bounds`: a top-K holding `YES` (alongside `NO`)
and a top-K holding only `NO` with k-th bound `-1`. -/
theorem c3_yes_mass_bounds_witness :
    ((yesprob_of_topk (TokenTopK.mk 0 (("YES").data) (-1)
        [((("YES").data), -1), ((("NO").data), -3)] (some (-3)))).p_yes_lower =
      (yesprob_of_topk (TokenTopK.mk 0 (("YES").data) (-1)
        [((("YES").data), -1), ((("NO").data), -3)] (some (-3)))).p_yes_upper) ∧
    ((yesprob_of_topk (TokenTopK.mk 0 (("NO").data) (-1)
        [((("NO").data), -1)] (some (-1)))).p_yes_lower = 0 ∧
      (yesprob_of_topk (TokenTopK.mk 0 (("NO").data) (-1)
        [((("NO").data), -1)] (some (-1)))).p_yes_upper =
        Real.exp (((-1 : ℚ) : ℝ))) :=
  ⟨((c3_yes_mass_bounds (TokenTopK.mk 0 (("YES").data) (-1)
      [((("YES").data), -1), ((("NO").data), -3)] (some (-3)))).1
      (by decide)).1,
   (c3_yes_mass_bounds (TokenTopK.mk 0 (("NO").data) (-1)
      [((("NO").data), -1)] (some (-1)))).2 (by decide)⟩

/-! ## Lemmas about extraction, and C10 -/

theorem firstNonWs_some_lt {l : List TokInfo} {i : Nat}
    (h : firstNonWs l = some i) : i < l.length := by
  induction l generalizing i with
  | nil => simp [firstNonWs] at h
  | cons t rest ih =>
      unfold firstNonWs at h
      split at h
      · cases h; simp
      · cases hr : firstNonWs rest with
        | none => rw [hr] at h; simp at h
        | some j =>
            rw [hr] at h
            simp only [Option.map_some'] at h
            cases h
            have := ih hr
            simp only [List.length_cons]
            omega

theorem firstNonWs_getD_lt {l : List TokInfo} (h : l ≠ []) :
    (firstNonWs l).getD 0 < l.length := by
  cases hf : firstNonWs l with
  | none =>
      cases l with
      | nil => exact absurd rfl h
      | cons t rest => simp
  | some i => simpa using firstNonWs_some_lt hf

theorem foldl_min_mem (x : ℚ) (xs : List ℚ) :
    xs.foldl min x ∈ x :: xs := by
  induction xs generalizing x with
  | nil => simp
  | cons y ys ih =>
      have h := ih (min x y)
      rcases List.mem_cons.1 h with h' | h'
      · rw [List.foldl_cons, h']
        rcases min_choice x y with hm | hm <;> rw [hm] <;> simp
      · rw [List.foldl_cons]
        exact List.mem_cons_of_mem _ (List.mem_cons_of_mem _ h')

theorem listMin_mem {l : List ℚ} {k : ℚ} (h : listMin l = some k) : k ∈ l := by
  cases l with
  | nil => simp [listMin] at h
  | cons x xs =>
      unfold listMin at h
      cases h
      exact foldl_min_mem x xs

/-- The k-th bound reported by extraction is one of the log-probabilities of
the alternatives at the selected position. -/
theorem mkTokenTopK_kth (pos : Nat) (tokinfo : TokInfo) (gen_lp : ℚ) :
    (mkTokenTopK pos tokinfo gen_lp).kth_logprob =
      if tokinfo.top_logprobs.isEmpty then none
      else listMin (tokinfo.top_logprobs.filterMap (·.logprob)) := rfl

theorem extract_kth_mem {seq : List TokInfo} {r : TokenTopK}
    (h : extract_answer_topk seq = .ok r) {k : ℚ}
    (hk : r.kth_logprob = some k) :
    ∃ t ∈ seq, ∃ e ∈ t.top_logprobs, e.logprob = some k := by
  unfold extract_answer_topk at h
  split at h
  · exact absurd h (by simp)
  · rename_i hne
    have hlen : (firstNonWs seq).getD 0 < seq.length :=
      firstNonWs_getD_lt (by simpa [List.isEmpty_iff] using hne)
    split at h
    · exact absurd h (by simp)
    · rename_i gen_lp hgen
      injection h with hr
      subst hr
      rw [mkTokenTopK_kth] at hk
      set tokinfo := seq.getD ((firstNonWs seq).getD 0) dfltTok with htok
      have htmem : tokinfo ∈ seq := by
        rw [htok, List.getD_eq_getElem?_getD, List.getElem?_eq_getElem hlen]
        exact List.getElem_mem _
      refine ⟨tokinfo, htmem, ?_⟩
      split at hk
      · exact absurd hk (by simp)
      · have hkmem : k ∈ tokinfo.top_logprobs.filterMap (·.logprob) :=
          listMin_mem hk
        rcases List.mem_filterMap.1 hkmem with ⟨e, he, heq⟩
        exact ⟨e, he, heq⟩

/-- C10: whenever `yesprob_from_logprobs` succeeds, the interval satisfies
`0 ≤ p_yes_lower ≤ p_yes_upper`; and when every reported log-probability of
the input is nonpositive, also `p_yes_upper ≤ 1`. -/
theorem c10_yesprob_interval (seq : List TokInfo) (y : YesProb)
    (h : yesprob_from_logprobs seq = .ok y) :
    (0 ≤ y.p_yes_lower ∧ y.p_yes_lower ≤ y.p_yes_upper) ∧
    ((∀ t ∈ seq, (∀ lp, t.logprob = some lp → lp ≤ 0) ∧
        (∀ e ∈ t.top_logprobs, ∀ lp, e.logprob = some lp → lp ≤ 0)) →
      y.p_yes_upper ≤ 1) := by
  unfold yesprob_from_logprobs at h
  split at h
  · exact absurd h (by simp)
  · rename_i tk hex
    injection h with hy
    subst hy
    by_cases hE : ((yesEntries tk.topk_logprobs).map Prod.snd).isEmpty = true
    · have hred : yesprob_of_topk tk =
          ⟨0,
           (match tk.kth_logprob with
            | some k => Real.exp ((k : ℝ))
            | none => (1:ℝ)),
           tk.generated_token, tk.generated_logprob, tk.kth_logprob,
           tk.topk_logprobs⟩ := by
        simp only [yesprob_of_topk, hE, if_true]
      rw [hred]
      refine ⟨⟨le_refl 0, ?_⟩, ?_⟩
      · cases tk.kth_logprob with
        | none => norm_num
        | some k => exact (Real.exp_pos _).le
      · intro hall
        cases hkth : tk.kth_logprob with
        | none => exact le_refl 1
        | some k =>
            rcases extract_kth_mem hex hkth with ⟨t, ht, e, he, heq⟩
            have hk0 : k ≤ 0 := ((hall t ht).2 e he) k heq
            show Real.exp ((k : ℝ)) ≤ 1
            rw [Real.exp_le_one_iff]
            exact_mod_cast hk0
    · have hE' : ((yesEntries tk.topk_logprobs).map Prod.snd).isEmpty =
          false := by
        simpa using hE
      have hred : yesprob_of_topk tk =
          ⟨min (max (((yesEntries tk.topk_logprobs).map Prod.snd).map
              (fun (lp : ℚ) => Real.exp ((lp : ℝ)))).sum 0) 1,
           min (max (((yesEntries tk.topk_logprobs).map Prod.snd).map
              (fun (lp : ℚ) => Real.exp ((lp : ℝ)))).sum 0) 1,
           tk.generated_token, tk.generated_logprob, tk.kth_logprob,
           tk.topk_logprobs⟩ := by
        simp only [yesprob_of_topk, hE', Bool.false_eq_true, if_false]
      rw [hred]
      refine ⟨⟨?_, le_refl _⟩, fun _ => min_le_right _ _⟩
      exact le_min (le_max_right _ _) zero_le_one

/-- Witness for `c10_yesprob_interval` on a one-token sequence whose
alternatives are `YES` at `-1` and `NO` at `-2`. -/
theorem c10_yesprob_interval_witness :
    (0 ≤ (yesprob_of_topk (TokenTopK.mk 0 (("YES").data) (-1)
        [((("YES").data), -1), ((("NO").data), -2)] (some (-2)))).p_yes_lower ∧
      (yesprob_of_topk (TokenTopK.mk 0 (("YES").data) (-1)
        [((("YES").data), -1), ((("NO").data), -2)] (some (-2)))).p_yes_lower ≤
      (yesprob_of_topk (TokenTopK.mk 0 (("YES").data) (-1)
        [((("YES").data), -1), ((("NO").data), -2)] (some (-2)))).p_yes_upper) ∧
    (yesprob_of_topk (TokenTopK.mk 0 (("YES").data) (-1)
        [((("YES").data), -1), ((("NO").data), -2)] (some (-2)))).p_yes_upper ≤ 1 := by
  have h := c10_yesprob_interval
    [TokInfo.mk (("YES").data) (some (-1))
      [TopEntry.mk (("YES").data) (some (-1)),
       TopEntry.mk (("NO").data) (some (-2))]]
    (yesprob_of_topk (TokenTopK.mk 0 (("YES").data) (-1)
      [((("YES").data), -1), ((("NO").data), -2)] (some (-2)))) rfl
  refine ⟨h.1, h.2 ?_⟩
  intro t ht
  simp only [List.mem_singleton] at ht
  subst ht
  refine ⟨fun lp hlp => ?_, fun e he lp hlp => ?_⟩
  · injection hlp with hl
    rw [← hl]
    norm_num
  · simp only [List.mem_cons, List.not_mem_nil, or_false] at he
    rcases he with he | he <;> subst he <;> injection hlp with hl <;>
      rw [← hl] <;> norm_num

/-! ## C9 -/

/-- The search loop of `extract_answer_topk` finds the first index whose
stripped token is non-empty, and reports nothing exactly when every token
is pure whitespace. -/
theorem firstNonWs_spec (l : List TokInfo) :
    (match firstNonWs l with
     | some i => trimCL ((l.getD i dfltTok).token) ≠ [] ∧
        ∀ j < i, trimCL ((l.getD j dfltTok).token) = []
     | none => ∀ t ∈ l, trimCL t.token = []) := by
  induction l with
  | nil => simp [firstNonWs]
  | cons t rest ih =>
      unfold firstNonWs
      by_cases hc : trimCL t.token ≠ []
      · rw [if_pos hc]
        exact ⟨hc, fun j hj => absurd hj (Nat.not_lt_zero j)⟩
      · rw [if_neg hc]
        push_neg at hc
        cases hr : firstNonWs rest with
        | none =>
            rw [hr] at ih
            simp only [Option.map_none']
            intro x hx
            rcases List.mem_cons.1 hx with rfl | hx
            · exact hc
            · exact ih x hx
        | some j =>
            rw [hr] at ih
            simp only [Option.map_some']
            refine ⟨ih.1, fun j' hj' => ?_⟩
            cases j' with
            | zero => exact hc
            | succ j'' => exact ih.2 j'' (Nat.lt_of_succ_lt_succ hj')

/-- C9 as amended: extraction fails with the empty-input error on `[]` and
with the missing-logprob error when the *selected* token (the first whose
stripped text is non-empty; position 0 if all are whitespace) has no
log-probability; it succeeds — with that position, token and
log-probability — whenever the selected token's log-probability is present,
even if some other token lacks one. -/
theorem c9_extraction (seq : List TokInfo) :
    (seq = [] →
      extract_answer_topk seq = .error ("empty logprobs list").data) ∧
    (seq ≠ [] →
      (seq.getD ((firstNonWs seq).getD 0) dfltTok).logprob = none →
      extract_answer_topk seq =
        .error ("missing logprob for generated token").data) ∧
    (seq ≠ [] → ∀ lp,
      (seq.getD ((firstNonWs seq).getD 0) dfltTok).logprob = some lp →
      extract_answer_topk seq =
        .ok (mkTokenTopK ((firstNonWs seq).getD 0)
          (seq.getD ((firstNonWs seq).getD 0) dfltTok) lp)) ∧
    (match firstNonWs seq with
     | some i => i < seq.length ∧ trimCL ((seq.getD i dfltTok).token) ≠ [] ∧
        ∀ j < i, trimCL ((seq.getD j dfltTok).token) = []
     | none => ∀ t ∈ seq, trimCL t.token = []) := by
  refine ⟨?_, ?_, ?_, ?_⟩
  · intro h
    subst h
    rfl
  · intro h hnone
    unfold extract_answer_topk
    rw [if_neg (by simpa [List.isEmpty_iff] using h), hnone]
  · intro h lp hsome
    unfold extract_answer_topk
    rw [if_neg (by simpa [List.isEmpty_iff] using h), hsome]
  · have hs := firstNonWs_spec seq
    cases hf : firstNonWs seq with
    | none => rw [hf] at hs; exact hs
    | some i =>
        rw [hf] at hs
        exact ⟨firstNonWs_some_lt hf, hs.1, hs.2⟩

/-- Witness for `c9_extraction`: the empty sequence errors, and a sequence
whose leading token is whitespace selects position 1 and succeeds. -/
theorem c9_extraction_witness :
    extract_answer_topk [] = .error ("empty logprobs list").data ∧
    extract_answer_topk
        [TokInfo.mk ((" ").data) (some (-1)) [],
         TokInfo.mk (("YES").data) (some (-2)) []] =
      .ok (mkTokenTopK
        ((firstNonWs [TokInfo.mk ((" ").data) (some (-1)) [],
          TokInfo.mk (("YES").data) (some (-2)) []]).getD 0)
        ([TokInfo.mk ((" ").data) (some (-1)) [],
          TokInfo.mk (("YES").data) (some (-2)) []].getD
          ((firstNonWs [TokInfo.mk ((" ").data) (some (-1)) [],
            TokInfo.mk (("YES").data) (some (-2)) []]).getD 0) dfltTok)
        (-2)) :=
  ⟨(c9_extraction []).1 rfl,
   (c9_extraction [TokInfo.mk ((" ").data) (some (-1)) [],
      TokInfo.mk (("YES").data) (some (-2)) []]).2.2.1
     (by decide) (-2) (by decide)⟩

/-- C9 counterexample: the sequence `[{token A, no logprob}, {token B,
logprob -1}]` is non-empty and contains a non-whitespace token whose
log-probability is present, yet extraction fails (the selected first
non-whitespace token `A` lacks its log-probability), refuting the claim's
success condition as stated. -/
theorem c9_counterexample :
    ([TokInfo.mk (("A").data) none [],
      TokInfo.mk (("B").data) (some (-1)) []] ≠ ([] : List TokInfo)) ∧
    (∃ t ∈ [TokInfo.mk (("A").data) none [],
        TokInfo.mk (("B").data) (some (-1)) []],
      trimCL t.token ≠ [] ∧ t.logprob.isSome = true) ∧
    (extract_answer_topk [TokInfo.mk (("A").data) none [],
        TokInfo.mk (("B").data) (some (-1)) []]).isOk = false := by decide

/-! ## C5 -/

/-- C5, evaluated on the code: the merge law of the specification holds on
`"Fact one. [S0] Fact two. [S1]"` (two claims, each resolving to exactly one
span), but the general rule fails on `"Fact one. [S0] [S1]"`: the segment
`[S0] [S1]` consists only of citation markers and whitespace (deleting its
markers leaves nothing but whitespace), has a preceding claim, and is
nevertheless emitted as its own claim instead of being merged backward —
the punctuation-stripping class `[\\s,;:.\\-–—!?]` of the source doubles its
backslashes inside a raw string and therefore does not strip the blank
between the markers. -/
theorem c5_citation_only_merge :
    split_claims (("Fact one. [S0] Fact two. [S1]").data)
        (("sentences").data) 25 =
      [("Fact one. [S0]").data, ("Fact two. [S1]").data] ∧
    (split_claims (("Fact one. [S0] Fact two. [S1]").data)
        (("sentences").data) 25).map
      (fun cl => map_cites_to_known_ids (extract_cites cl)
        [("S0").data, ("S1").data]) = [[("S0").data], [("S1").data]] ∧
    trimCL (subCites (("[S0] [S1]").data)) = [] ∧
    findCite (("[S0] [S1]").data) = true ∧
    split_claims (("Fact one. [S0] [S1]").data) (("sentences").data) 25 =
      [("Fact one.").data, ("[S0] [S1]").data] := by decide

/-! ## C8 -/

theorem select_context_spans_unknown {mode : Str} (spans : List Span)
    (cites : List Str)
    (h : normMode mode ∉ [("all").data, ("full").data, ("auto").data,
      ("cited").data, ("cite").data, ("citations").data, ("cites").data]) :
    select_context_spans spans cites mode =
      .error ("Unknown context_mode").data := by
  simp only [List.mem_cons, not_or] at h
  obtain ⟨h1, h2, h3, h4, h5, h6, h7, -⟩ := h
  simp only [select_context_spans]
  rw [if_neg (by tauto), if_neg h3, if_neg (by tauto)]

theorem step_prompts_unknown_mode {mode : Str} (spans : List Span)
    (cites : List Str) (claim placeholder : Str)
    (h : normMode mode ∉ [("all").data, ("full").data, ("auto").data,
      ("cited").data, ("cite").data, ("citations").data, ("cites").data]) :
    step_prompts spans cites claim placeholder mode =
      .error ("Unknown context_mode").data := by
  unfold step_prompts
  rw [select_context_spans_unknown spans cites h]

/-- With a non-empty step list and an unknown context mode, the scorer
raises before any backend call. -/
theorem score_trace_budget_unknown_mode (trace : Trace) (backend : Backend)
    {mode : Str} (placeholder : Str) (hsteps : trace.steps ≠ [])
    (hmode : normMode mode ∉ [("all").data, ("full").data, ("auto").data,
      ("cited").data, ("cite").data, ("citations").data, ("cites").data]) :
    score_trace_budget trace backend mode placeholder =
      .error ("Unknown context_mode").data := by
  unfold score_trace_budget
  rw [if_neg (by simpa [List.isEmpty_iff] using hsteps)]
  cases hs : trace.steps with
  | nil => exact absurd hs hsteps
  | cons st rest =>
      rw [List.mapM_cons,
        step_prompts_unknown_mode trace.spans st.cites st.claim placeholder
          hmode]
      rfl

/-- C8 as amended: `run_detect_hallucination` returns the structured error
object (`flagged = true`, populated `error`, empty `details`) when the
normalized span pool is empty or the unsupported backend paths are
requested, and `run_audit_trace_budget` likewise for the unsupported
backend paths; but an invalid `context_mode` (and similarly an invalid
citation regex or a backend failure) propagates as a raised exception
instead of being converted to such an object, and `run_audit_trace_budget`
performs no empty-span-pool check at all. -/
theorem c8_entry_error_shapes (answer : Str) (spans : List RawSpan)
    (default_target : ℝ) (placeholder : Str) (max_claims : Nat)
    (claim_split : Str) (context_mode : Str) (require_citations : Bool)
    (pool_json local_llm : Bool) (backend : Backend)
    (steps : List RawStep) (include_prompts : Bool) :
    (normalize_spans spans = [] →
      run_detect_hallucination answer spans default_target placeholder
        max_claims claim_split context_mode require_citations pool_json
        local_llm backend = .ok (errResult msgNoSpans)) ∧
    (normalize_spans spans ≠ [] → (pool_json || local_llm) = true →
      run_detect_hallucination answer spans default_target placeholder
        max_claims claim_split context_mode require_citations pool_json
        local_llm backend = .ok (errResult msgOpenAIOnly)) ∧
    (include_prompts = false → (pool_json || local_llm) = true →
      run_audit_trace_budget steps spans default_target placeholder
        context_mode require_citations include_prompts pool_json local_llm
        backend = .ok (errResult msgOpenAIOnly)) ∧
    (normalize_spans spans ≠ [] → pool_json = false → local_llm = false →
      split_claims answer claim_split max_claims ≠ [] →
      normMode context_mode ∉ [("all").data, ("full").data, ("auto").data,
        ("cited").data, ("cite").data, ("citations").data, ("cites").data] →
      run_detect_hallucination answer spans default_target placeholder
        max_claims claim_split context_mode require_citations pool_json
        local_llm backend = .error ("Unknown context_mode").data) := by
  refine ⟨?_, ?_, ?_, ?_⟩
  · intro h
    unfold run_detect_hallucination
    rw [if_pos (by simpa [List.isEmpty_iff] using h)]
  · intro h hp
    unfold run_detect_hallucination
    rw [if_neg (by simpa [List.isEmpty_iff] using h), if_pos hp]
  · intro hip hp
    unfold run_audit_trace_budget
    rw [hip]
    simp only [Bool.false_eq_true, if_false]
    rw [if_pos hp]
  · intro hspan hpool hllm hclaims hmode
    unfold run_detect_hallucination
    rw [if_neg (by simpa [List.isEmpty_iff] using hspan),
      if_neg (by simp [hpool, hllm])]
    have hsteps : ((split_claims answer claim_split max_claims).enum.map
        (fun p => Step.mk (p.1 : Int) p.2
          (map_cites_to_known_ids (extract_cites p.2)
            ((normalize_spans spans).map (·.sid))) default_target)) ≠ [] := by
      simp [List.map_eq_nil_iff, List.enum_eq_nil, hclaims]
    have hrw := score_trace_budget_unknown_mode
      (Trace.mk ((split_claims answer claim_split max_claims).enum.map
        (fun p => Step.mk (p.1 : Int) p.2
          (map_cites_to_known_ids (extract_cites p.2)
            ((normalize_spans spans).map (·.sid))) default_target))
        (normalize_spans spans)) backend placeholder hsteps hmode
    simp only [hrw]

/-- Witness for `c8_entry_error_shapes`: an all-blank span pool for the
first shape, the local-LLM path for the second and third, and context mode
`bogus` with one claim and one span for the exception shape. -/
theorem c8_entry_error_shapes_witness :
    run_detect_hallucination (("Fact.").data)
        [RawSpan.mk (("S0").data) (("  ").data)] 0.95 (("[REDACTED]").data)
        25 (("sentences").data) (("all").data) false false false
        (fun _ => .ok []) = .ok (errResult msgNoSpans) ∧
    run_detect_hallucination (("Fact.").data)
        [RawSpan.mk (("S0").data) (("water").data)] 0.95 (("[REDACTED]").data)
        25 (("sentences").data) (("all").data) false false true
        (fun _ => .ok []) = .ok (errResult msgOpenAIOnly) ∧
    run_audit_trace_budget [] [RawSpan.mk (("S0").data) (("water").data)]
        0.95 (("[REDACTED]").data) (("all").data) false false true false
        (fun _ => .ok []) = .ok (errResult msgOpenAIOnly) ∧
    run_detect_hallucination (("Fact.").data)
        [RawSpan.mk (("S0").data) (("water").data)] 0.95 (("[REDACTED]").data)
        25 (("sentences").data) (("bogus").data) false false false
        (fun _ => .ok []) = .error ("Unknown context_mode").data :=
  ⟨(c8_entry_error_shapes (("Fact.").data)
      [RawSpan.mk (("S0").data) (("  ").data)] 0.95 (("[REDACTED]").data)
      25 (("sentences").data) (("all").data) false false false
      (fun _ => .ok []) [] false).1 (by decide),
   (c8_entry_error_shapes (("Fact.").data)
      [RawSpan.mk (("S0").data) (("water").data)] 0.95 (("[REDACTED]").data)
      25 (("sentences").data) (("all").data) false false true
      (fun _ => .ok []) [] false).2.1 (by decide) rfl,
   (c8_entry_error_shapes (("Fact.").data)
      [RawSpan.mk (("S0").data) (("water").data)] 0.95 (("[REDACTED]").data)
      25 (("sentences").data) (("all").data) false false true
      (fun _ => .ok []) [] false).2.2.1 rfl rfl,
   (c8_entry_error_shapes (("Fact.").data)
      [RawSpan.mk (("S0").data) (("water").data)] 0.95 (("[REDACTED]").data)
      25 (("sentences").data) (("bogus").data) false false false
      (fun _ => .ok []) [] false).2.2.2 (by decide) rfl rfl (by decide)
      (by decide)⟩

/-- C8 counterexample: with a non-empty span pool, a non-empty claim list
and context mode `bogus`, `run_detect_hallucination` raises the
`ValueError` instead of returning a `flagged = true` error object. -/
theorem c8_counterexample :
    (normalize_spans [RawSpan.mk (("S0").data) (("water").data)] ≠ []) ∧
    (run_detect_hallucination (("Fact. [S0]").data)
      [RawSpan.mk (("S0").data) (("water").data)] 0.95 (("[REDACTED]").data)
      25 (("sentences").data) (("bogus").data) false false false
      (fun _ => .ok [])).isOk = false := by
  constructor
  · decide
  · rfl

/-! ## C7 support: character content and infix survival of the prompts -/

/-- Every character the rendered prompt can contain besides the claim, the
placeholder, and the span ids and texts: the three template pieces, the
line furniture `[`, `]`, blank, and the non-evidence masks. -/
def promptFixedChars : Str :=
  tmplA ++ tmplB ++ tmplC ++
    ("[] NON-EVIDENCE:QUESTIONINSTRUCTIONEMPTY").data

theorem mem_of_mem_trimCL {c : Char} {s : Str} (h : c ∈ trimCL s) : c ∈ s := by
  unfold trimCL at h
  have h1 := List.mem_reverse.1 h
  have h2 := (List.dropWhile_sublist _).subset h1
  have h3 := List.mem_reverse.1 h2
  exact (List.dropWhile_sublist _).subset h3

theorem mem_joinSep {c : Char} {sep : Str} :
    ∀ {l : List Str}, c ∈ joinSep sep l → c ∈ sep ∨ ∃ x ∈ l, c ∈ x := by
  intro l
  induction l with
  | nil => intro h; simp [joinSep] at h
  | cons x xs ih =>
      intro h
      cases xs with
      | nil =>
          right
          exact ⟨x, List.mem_singleton_self x, h⟩
      | cons y ys =>
          rw [show joinSep sep (x :: y :: ys) = x ++ sep ++ joinSep sep (y :: ys)
            from rfl] at h
          rcases List.mem_append.1 h with h | h
          · rcases List.mem_append.1 h with h | h
            · exact Or.inr ⟨x, List.mem_cons_self x _, h⟩
            · exact Or.inl h
          · rcases ih h with h | ⟨z, hz, hc⟩
            · exact Or.inl h
            · exact Or.inr ⟨z, List.mem_cons_of_mem x hz, hc⟩

theorem infix_joinSep {sep x : Str} :
    ∀ {l : List Str}, x ∈ l → List.IsInfix x (joinSep sep l) := by
  intro l
  induction l with
  | nil => intro h; simp at h
  | cons z zs ih =>
      intro h
      rcases List.mem_cons.1 h with rfl | h
      · cases zs with
        | nil => exact List.infix_refl x
        | cons y ys =>
            exact ⟨[], sep ++ joinSep sep (y :: ys), by
              rw [show joinSep sep (x :: y :: ys)
                = x ++ sep ++ joinSep sep (y :: ys) from rfl]
              simp [List.append_assoc]⟩
      · cases zs with
        | nil => simp at h
        | cons y ys =>
            rcases ih h with ⟨a, b, hab⟩
            exact ⟨z ++ sep ++ a, b, by
              rw [show joinSep sep (z :: y :: ys)
                = z ++ sep ++ joinSep sep (y :: ys) from rfl, ← hab]
              simp⟩

theorem infix_dropWhile_ws {c0 : Char} {p s : Str} (hp : p.head? = some c0)
    (hc : c0.isWhitespace = false) (h : List.IsInfix p s) :
    List.IsInfix p (s.dropWhile Char.isWhitespace) := by
  rcases h with ⟨a, b, rfl⟩
  induction a with
  | nil =>
      cases p with
      | nil => simp at hp
      | cons hd tl =>
          have hhd : hd = c0 := by simpa using hp
          subst hhd
          rw [List.nil_append, List.cons_append,
            List.dropWhile_cons_of_neg (by simp [hc])]
          exact ⟨[], b, by simp⟩
  | cons a0 as ih =>
      simp only [List.cons_append]
      by_cases hws : a0.isWhitespace
      · rw [List.dropWhile_cons_of_pos hws]
        simpa only [List.cons_append] using ih
      · rw [List.dropWhile_cons_of_neg hws]
        exact ⟨a0 :: as, b, by simp⟩

/-- An infix whose first and last characters are not whitespace survives a
two-sided strip of the surrounding string. -/
theorem infix_trimCL {p s : Str} {c0 cl : Char}
    (hh : p.head? = some c0) (hc0 : c0.isWhitespace = false)
    (hl : p.getLast? = some cl) (hcl : cl.isWhitespace = false)
    (h : List.IsInfix p s) : List.IsInfix p (trimCL s) := by
  unfold trimCL
  have s1 : List.IsInfix p (s.dropWhile Char.isWhitespace) :=
    infix_dropWhile_ws hh hc0 h
  have s2 : List.IsInfix p.reverse (s.dropWhile Char.isWhitespace).reverse :=
    List.reverse_infix.2 s1
  have hrevh : p.reverse.head? = some cl := by
    rw [List.head?_reverse, hl]
  have s3 := infix_dropWhile_ws hrevh hcl s2
  have s4 := List.reverse_infix.2 s3
  simpa using s4

theorem span_kind_cases (t : Str) :
    span_kind t = ("EMPTY").data ∨ span_kind t = ("QUESTION").data ∨
    span_kind t = ("INSTRUCTION").data ∨
    span_kind t = ("ASSERTION").data := by
  simp only [span_kind]
  split_ifs <;> simp

/-- The rendered line of a span is one of two shapes: unmasked text for an
assertive span, or the non-evidence mask for the other kinds. -/
theorem spanLine_cases (s : Span) :
    (span_kind s.text = ("ASSERTION").data ∧
      spanLine true s = '[' :: s.sid ++ ']' :: ' ' :: s.text) ∨
    ((span_kind s.text = ("QUESTION").data ∨
      span_kind s.text = ("INSTRUCTION").data ∨
      span_kind s.text = ("EMPTY").data) ∧
      spanLine true s = '[' :: s.sid ++ ']' :: ' ' ::
        (("[NON-EVIDENCE:").data ++ span_kind s.text ++ [']'])) := by
  by_cases h : span_kind s.text = ("QUESTION").data ∨
      span_kind s.text = ("INSTRUCTION").data ∨
      span_kind s.text = ("EMPTY").data
  · right
    refine ⟨h, ?_⟩
    have hcond : (true &&
        (decide (span_kind s.text = ("QUESTION").data) ||
          decide (span_kind s.text = ("INSTRUCTION").data) ||
          decide (span_kind s.text = ("EMPTY").data))) = true := by
      simp only [Bool.true_and, Bool.or_eq_true, decide_eq_true_eq]
      exact or_assoc.mpr h
    simp only [spanLine, hcond, if_true]
  · left
    constructor
    · rcases span_kind_cases s.text with hk | hk | hk | hk
      · exact absurd (Or.inr (Or.inr hk)) h
      · exact absurd (Or.inl hk) h
      · exact absurd (Or.inr (Or.inl hk)) h
      · exact hk
    · have hcond : (true &&
          (decide (span_kind s.text = ("QUESTION").data) ||
            decide (span_kind s.text = ("INSTRUCTION").data) ||
            decide (span_kind s.text = ("EMPTY").data))) = false := by
        refine Bool.eq_false_iff.mpr ?_
        simp only [Bool.true_and, Bool.or_eq_true, decide_eq_true_eq, ne_eq]
        exact fun hh => h (or_assoc.mp hh)
      simp only [spanLine, hcond, Bool.false_eq_true, if_false]

theorem mem_spanLine {c : Char} {s : Span} (h : c ∈ spanLine true s) :
    c ∈ promptFixedChars ∨ c ∈ s.sid ∨
      (span_kind s.text = ("ASSERTION").data ∧ c ∈ s.text) := by
  rcases spanLine_cases s with ⟨hk, heq⟩ | ⟨hk, heq⟩
  · rw [heq] at h
    rcases List.mem_cons.1 h with rfl | h
    · exact Or.inl (by decide)
    rcases List.mem_append.1 h with h | h
    · exact Or.inr (Or.inl h)
    rcases List.mem_cons.1 h with rfl | h
    · exact Or.inl (by decide)
    rcases List.mem_cons.1 h with rfl | h
    · exact Or.inl (by decide)
    exact Or.inr (Or.inr ⟨hk, h⟩)
  · rw [heq] at h
    rcases List.mem_cons.1 h with rfl | h
    · exact Or.inl (by decide)
    rcases List.mem_append.1 h with h | h
    · exact Or.inr (Or.inl h)
    rcases List.mem_cons.1 h with rfl | h
    · exact Or.inl (by decide)
    rcases List.mem_cons.1 h with rfl | h
    · exact Or.inl (by decide)
    left
    rcases List.mem_append.1 h with h | h
    · rcases List.mem_append.1 h with h | h
      · exact (by decide :
          ∀ a ∈ (("[NON-EVIDENCE:").data), a ∈ promptFixedChars) c h
      · rcases hk with hk | hk | hk <;> rw [hk] at h
        · exact (by decide :
            ∀ a ∈ (("QUESTION").data), a ∈ promptFixedChars) c h
        · exact (by decide :
            ∀ a ∈ (("INSTRUCTION").data), a ∈ promptFixedChars) c h
        · exact (by decide :
            ∀ a ∈ (("EMPTY").data), a ∈ promptFixedChars) c h
    · rcases List.mem_singleton.1 h with rfl
      decide

theorem mem_spans_block {c : Char} {spans : List Span}
    (h : c ∈ spans_block spans true) :
    c ∈ promptFixedChars ∨ ∃ s ∈ spans, c ∈ s.sid ∨
      (span_kind s.text = ("ASSERTION").data ∧ c ∈ s.text) := by
  unfold spans_block at h
  have h1 := mem_of_mem_trimCL h
  rcases mem_joinSep h1 with h2 | ⟨x, hx, hcx⟩
  · rcases List.mem_singleton.1 h2 with rfl
    exact Or.inl (by decide)
  · rcases List.mem_map.1 hx with ⟨s, hs, rfl⟩
    rcases mem_spanLine hcx with h3 | h3 | h3
    · exact Or.inl h3
    · exact Or.inr ⟨s, hs, Or.inl h3⟩
    · exact Or.inr ⟨s, hs, Or.inr h3⟩

/-- Character coverage of the rendered entailment prompt: everything comes
from the fixed template material, the claim, or a span's sid or (when
classified assertive and unmasked) its text. -/
theorem mem_build_yes_prompt {c : Char} {spans : List Span} {claim : Str}
    (h : c ∈ build_yes_prompt spans claim) :
    c ∈ promptFixedChars ∨ c ∈ claim ∨ ∃ s ∈ spans, c ∈ s.sid ∨
      (span_kind s.text = ("ASSERTION").data ∧ c ∈ s.text) := by
  unfold build_yes_prompt at h
  have h1 := mem_of_mem_trimCL h
  rcases List.mem_append.1 h1 with h2 | h2
  swap
  · exact Or.inl (by unfold promptFixedChars; simp [h2])
  rcases List.mem_append.1 h2 with h3 | h3
  swap
  · exact Or.inr (Or.inl (mem_of_mem_trimCL h3))
  rcases List.mem_append.1 h3 with h4 | h4
  swap
  · exact Or.inl (by unfold promptFixedChars; simp [h4])
  rcases List.mem_append.1 h4 with h5 | h5
  · exact Or.inl (by unfold promptFixedChars; simp [h5])
  · rcases mem_spans_block h5 with h6 | h6
    · exact Or.inl h6
    · exact Or.inr (Or.inr h6)

/-- An assertive span's text occurs verbatim in the rendered prompt when its
edges are not whitespace. -/
theorem infix_build_yes_prompt {spans : List Span} {claim : Str} {s0 : Span}
    {c0 cl : Char} (hs0 : s0 ∈ spans)
    (hkind : span_kind s0.text = ("ASSERTION").data)
    (hh : s0.text.head? = some c0) (hc0 : c0.isWhitespace = false)
    (hl : s0.text.getLast? = some cl) (hcl : cl.isWhitespace = false) :
    List.IsInfix s0.text (build_yes_prompt spans claim) := by
  have hline : spanLine true s0 = '[' :: s0.sid ++ ']' :: ' ' :: s0.text := by
    rcases spanLine_cases s0 with ⟨-, heq⟩ | ⟨hk, -⟩
    · exact heq
    · rcases hk with hk | hk | hk <;> rw [hkind] at hk <;>
        exact absurd hk (by decide)
  have h1 : List.IsInfix s0.text (spanLine true s0) := by
    rw [hline]
    exact ⟨'[' :: s0.sid ++ [']', ' '], [], by simp⟩
  have h2 : List.IsInfix s0.text (joinSep ['\n'] (spans.map (spanLine true))) :=
    h1.trans (infix_joinSep (List.mem_map.2 ⟨s0, hs0, rfl⟩))
  have h3 : List.IsInfix s0.text (spans_block spans true) :=
    infix_trimCL hh hc0 hl hcl h2
  have h4 : List.IsInfix s0.text
      (tmplA ++ spans_block spans true ++ tmplB ++ trimCL claim ++ tmplC) :=
    h3.trans ⟨tmplA, tmplB ++ trimCL claim ++ tmplC, by simp⟩
  exact infix_trimCL hh hc0 hl hcl h4

/-- Destructuring membership in a scrubbed span list. -/
theorem mem_scrub {s' : Span} {spans : List Span} {cites : List Str}
    {placeholder : Str}
    (h : s' ∈ scrub_spans_by_id spans cites placeholder) :
    ∃ s ∈ spans, s'.sid = s.sid ∧
      (s'.text = placeholder ∨ (s.sid ∉ cites ∧ s'.text = s.text)) := by
  unfold scrub_spans_by_id at h
  rcases List.mem_map.1 h with ⟨s, hs, heq⟩
  by_cases hc : s.sid ∈ cites
  · rw [if_pos hc] at heq
    exact ⟨s, hs, by rw [← heq], Or.inl (by rw [← heq])⟩
  · rw [if_neg hc] at heq
    exact ⟨s, hs, by rw [← heq], Or.inr ⟨hc, by rw [← heq]⟩⟩

theorem select_cited (spans : List Span) (cites : List Str) :
    select_context_spans spans cites (("cited").data) =
      .ok (spans.filter (fun s => decide (s.sid ∈ cites))) := by
  unfold select_context_spans
  rw [if_neg (by decide), if_neg (by decide), if_pos (by decide)]

/-! ## C7 -/

/-- C7 as amended: for a step whose prompts are built with
`context_mode = "cited"`, a cited span `s0` that is classified ASSERTION and
whose trimmed text is non-empty appears verbatim in the posterior prompt;
it does not appear in the prior prompt provided some character of its text
occurs in none of the fixed template material, the placeholder, the claim,
or any span id; and an uncited span's text does not appear in the posterior
prompt provided some character of its text occurs in none of the fixed
template material, the claim, any span id, or any cited span's text.
(Question/instruction/empty spans are masked in both prompts, so the
as-stated claim fails for them.) -/
theorem c7_masking (spans : List Span) (cites : List Str) (claim : Str)
    (placeholder : Str) (s0 : Span) (post prior : Str)
    (hrun : step_prompts spans cites claim placeholder (("cited").data) =
      .ok (post, prior))
    (hs0 : s0 ∈ spans) (hc0 : s0.sid ∈ cites)
    (hkind : span_kind s0.text = ("ASSERTION").data)
    (hne : s0.text ≠ [])
    (hhw : (s0.text.headD ' ').isWhitespace = false)
    (hlw : (s0.text.getLastD ' ').isWhitespace = false) :
    List.IsInfix s0.text post ∧
    ((∃ c ∈ s0.text, c ∉ promptFixedChars ∧ c ∉ placeholder ∧ c ∉ claim ∧
        ∀ s ∈ spans, c ∉ s.sid) →
      ¬ List.IsInfix s0.text prior) ∧
    (∀ s1 ∈ spans, s1.sid ∉ cites →
      (∃ c ∈ s1.text, c ∉ promptFixedChars ∧ c ∉ claim ∧
        (∀ s ∈ spans, c ∉ s.sid) ∧
        (∀ s ∈ spans, s.sid ∈ cites → c ∉ s.text)) →
      ¬ List.IsInfix s1.text post) := by
  have hcne : cites ≠ [] := List.ne_nil_of_mem hc0
  have hcempty : cites.isEmpty = false := by
    simp [List.isEmpty_iff, hcne]
  unfold step_prompts at hrun
  rw [select_cited spans cites] at hrun
  simp only [hcempty, Bool.false_eq_true, if_false] at hrun
  injection hrun with hpair
  cases hpair
  have hh : s0.text.head? = some (s0.text.headD ' ') := by
    cases hx : s0.text with
    | nil => exact absurd hx hne
    | cons a l => rfl
  have hl : s0.text.getLast? = some (s0.text.getLastD ' ') := by
    cases hx : s0.text.getLast? with
    | none =>
        exact absurd (List.getLast?_eq_none_iff.1 hx) hne
    | some a => rw [List.getLastD_eq_getLast?, hx]; rfl
  have hs0ctx : s0 ∈ spans.filter (fun s => decide (s.sid ∈ cites)) :=
    List.mem_filter.2 ⟨hs0, by simp [hc0]⟩
  refine ⟨?_, ?_, ?_⟩
  · exact infix_build_yes_prompt hs0ctx hkind hh hhw hl hlw
  · rintro ⟨c, hcmem, hcfix, hcph, hcclaim, hcsids⟩ hinf
    have hcprior : c ∈ build_yes_prompt
        (scrub_spans_by_id (spans.filter (fun s => decide (s.sid ∈ cites)))
          cites placeholder) claim := hinf.subset hcmem
    rcases mem_build_yes_prompt hcprior with h | h | ⟨s', hs', h⟩
    · exact hcfix h
    · exact hcclaim h
    · rcases mem_scrub hs' with ⟨s'', hs'', hsid, htext⟩
      have hs''spans : s'' ∈ spans := (List.mem_filter.1 hs'').1
      rcases h with h | ⟨-, h⟩
      · rw [hsid] at h
        exact hcsids s'' hs''spans h
      · rcases htext with ht | ⟨hnc, ht⟩
        · rw [ht] at h; exact hcph h
        · have hdec := (List.mem_filter.1 hs'').2
          simp only [decide_eq_true_eq] at hdec
          exact hnc hdec
  · rintro s1 hs1 hs1nc ⟨c, hcmem, hcfix, hcclaim, hcsids, hctexts⟩ hinf
    have hcpost : c ∈ build_yes_prompt
        (spans.filter (fun s => decide (s.sid ∈ cites))) claim :=
      hinf.subset hcmem
    rcases mem_build_yes_prompt hcpost with h | h | ⟨s', hs', h⟩
    · exact hcfix h
    · exact hcclaim h
    · have hs'spans : s' ∈ spans := (List.mem_filter.1 hs').1
      have hs'c : s'.sid ∈ cites := by
        have := (List.mem_filter.1 hs').2
        simpa using this
      rcases h with h | ⟨-, h⟩
      · exact hcsids s' hs'spans h
      · exact hctexts s' hs'spans hs'c h

/-- Witness for `c7_masking`: pool `{S0: water@100, S1: rock#42}`, citation
`S0`, claim `The boiling point.`.  The characters `@` and `#` occur nowhere
else, so the separating hypotheses hold by computation. -/
theorem c7_masking_witness :
    List.IsInfix (("water@100").data)
      (build_yes_prompt
        [Span.mk (("S0").data) (("water@100").data)]
        (("The boiling point.").data)) ∧
    ¬ List.IsInfix (("water@100").data)
      (build_yes_prompt
        [Span.mk (("S0").data) (("[REDACTED]").data)]
        (("The boiling point.").data)) ∧
    ¬ List.IsInfix (("rock#42").data)
      (build_yes_prompt
        [Span.mk (("S0").data) (("water@100").data)]
        (("The boiling point.").data)) := by
  have h := c7_masking
    [Span.mk (("S0").data) (("water@100").data),
     Span.mk (("S1").data) (("rock#42").data)]
    [("S0").data] (("The boiling point.").data) (("[REDACTED]").data)
    (Span.mk (("S0").data) (("water@100").data))
    (build_yes_prompt [Span.mk (("S0").data) (("water@100").data)]
      (("The boiling point.").data))
    (build_yes_prompt [Span.mk (("S0").data) (("[REDACTED]").data)]
      (("The boiling point.").data))
    rfl (by decide) (by decide) (by decide) (by decide)
    (by decide) (by decide)
  exact ⟨h.1, h.2.1 ⟨'@', by decide, by decide, by decide, by decide,
      by decide⟩,
    h.2.2 (Span.mk (("S1").data) (("rock#42").data)) (by decide) (by decide)
      ⟨'#', by decide, by decide, by decide, by decide, by decide⟩⟩

/-- C7 counterexample: the cited span `S0 = "Is water@100C wet?"` is
non-empty, distinct from the placeholder, and occurs neither in other spans
(there are none) nor in the claim, yet its text does **not** appear
verbatim in the posterior prompt built with `context_mode = "cited"` — the
span is classified QUESTION and masked as `[NON-EVIDENCE:QUESTION]`,
refuting the claim as stated. -/
theorem c7_counterexample :
    (("Is water@100C wet?").data ≠ [] ∧
      ("Is water@100C wet?").data ≠ ("[REDACTED]").data ∧
      ¬ List.IsInfix (("Is water@100C wet?").data)
        (("Water is wet.").data)) ∧
    (step_prompts [Span.mk (("S0").data) (("Is water@100C wet?").data)]
        [("S0").data] (("Water is wet.").data) (("[REDACTED]").data)
        (("cited").data)).map Prod.fst =
      .ok (build_yes_prompt
        [Span.mk (("S0").data) (("Is water@100C wet?").data)]
        (("Water is wet.").data)) ∧
    ¬ List.IsInfix (("Is water@100C wet?").data)
      (build_yes_prompt [Span.mk (("S0").data) (("Is water@100C wet?").data)]
        (("Water is wet.").data)) := by
  refine ⟨⟨by decide, by decide, by decide⟩, rfl, fun hinf => ?_⟩
  have hat : '@' ∈ build_yes_prompt
      [Span.mk (("S0").data) (("Is water@100C wet?").data)]
      (("Water is wet.").data) :=
    hinf.subset (by decide : '@' ∈ (("Is water@100C wet?").data))
  rcases mem_build_yes_prompt hat with h | h | ⟨s', hs', h⟩
  · exact absurd h (by decide)
  · exact absurd h (by decide)
  · rcases List.mem_singleton.1 hs' with rfl
    rcases h with h | ⟨hk, -⟩
    · exact absurd h (by decide)
    · exact absurd hk (by decide)

end Berry
